import Mathlib

/-!
# Game of Life (`main.go`): shallow embedding and verified properties

The grid of check boxes `[][]*widget.Check` is embedded as a list of rows of
booleans (the `Checked` field of each box).  A slice access that Go would
answer with the run-time panic "index out of range" is `none`.  Widget calls
that only repaint (`Refresh`, the label text) carry no simulation state and are
left out; whether the Start button is enabled is kept in `Sim`.
-/

namespace GameOfLife

/-! ## Data model -/

/-- The cell matrix `grid [][]*widget.Check`, row `y` first, then column `x`. -/
abbrev Grid := List (List Bool)

/-- The largest value of Go's 64-bit `int`. -/
def maxInt : Int := 9223372036854775807

/-- The `world` struct.  The `int` counter is embedded as an integer and `++` as
`+ 1`, which is what Go computes for every counter below `maxInt`; at `maxInt`
Go wraps to the least `int`.  A theorem that speaks of the counter after `++`
keeps the counter it starts from below `maxInt`. -/
structure World where
  grid : Grid
  generating : Bool
  currentGeneration : Int
deriving DecidableEq

/-- Ways a modelled loop can fail to hand back a state. -/
inductive Fault where
  | indexOutOfRange
  | outOfFuel
deriving DecidableEq

/-- Go slice indexing `s[i]` with an `int` index. -/
def index {α : Type} (s : List α) (i : Int) : Option α :=
  if 0 ≤ i then s[i.toNat]? else none

/-- Go assignment `g[y][x] = v` (for the check boxes: `g[y][x].Checked = v`). -/
def setCell (g : Grid) (y x : Int) (v : Bool) : Option Grid := do
  let row ← index g y
  let _ ← index row x
  pure (g.set y.toNat (row.set x.toNat v))

/-! ## Grid engine -/

/-- `checkNeighbor`: 1 when the neighbour at the offset is inside the grid and
checked, 0 otherwise. -/
def checkNeighbor (grid : Grid) (x y xOffset yOffset : Int) : Option Int :=
  if 0 ≤ y + yOffset ∧ y + yOffset < grid.length then do
    let row0 ← index grid 0
    if 0 ≤ x + xOffset ∧ x + xOffset < row0.length then do
      let row ← index grid (y + yOffset)
      let cell ← index row (x + xOffset)
      if cell then pure 1 else pure 0
    else pure 0
  else pure 0

/-- The values taken by `yOffset` and `xOffset` in the two `for` loops of
`getNumberOfLivingNeighbors` (`-1; < 2; ++`). -/
def offsetRange : List Int := [-1, 0, 1]

/-- `getNumberOfLivingNeighbors`: the nested offset loops accumulating
`checkNeighbor`, the centre skipped. -/
def getNumberOfLivingNeighbors (grid : Grid) (x y : Int) : Option Int :=
  offsetRange.foldlM (fun numberOfNeighbors yOffset =>
    offsetRange.foldlM (fun numberOfNeighbors xOffset =>
      if ¬ (xOffset = 0 ∧ yOffset = 0) then do
        let c ← checkNeighbor grid x y xOffset yOffset
        pure (numberOfNeighbors + c)
      else pure numberOfNeighbors) numberOfNeighbors) 0

/-- The first loop of `nextGeneration`: `nextGen` gets one fresh row of
`false` per grid row, of that row's length. -/
def allocNextGen (grid : Grid) : List (List Bool) :=
  grid.map fun row => List.replicate row.length false

/-- Body of the inner loop of the second nest of `nextGeneration`: decide cell
`(x, y)` from the current grid and store it in `nextGen`.  The `&&` reads
`grid[y][x]` only when the count is 2. -/
def computeCell (grid : Grid) (nextGen : List (List Bool)) (y x : Nat) :
    Option (List (List Bool)) := do
  let neighbors ← getNumberOfLivingNeighbors grid x y
  let live ←
    if neighbors = 3 then pure true
    else if neighbors = 2 then do
      let row ← index grid y
      index row x
    else pure false
  setCell nextGen y x live

/-- Body of the outer loop of the second nest: the `x` loop up to
`len(grid[0])`. -/
def computeRow (grid : Grid) (nextGen : List (List Bool)) (y : Nat) :
    Option (List (List Bool)) := do
  let row0 ← index grid 0
  (List.range row0.length).foldlM (fun nextGen x => computeCell grid nextGen y x) nextGen

/-- The second loop nest of `nextGeneration`: fill `nextGen` from the current
grid. -/
def computeNextGen (grid : Grid) (nextGen : List (List Bool)) : Option (List (List Bool)) :=
  (List.range grid.length).foldlM (fun nextGen y => computeRow grid nextGen y) nextGen

/-- Body of the inner loop of the third nest: `grid[y][x].Checked = nextGen[y][x]`. -/
def commitCell (nextGen : List (List Bool)) (g : Grid) (y x : Nat) : Option Grid := do
  let row ← index nextGen y
  let v ← index row x
  setCell g y x v

/-- Body of the outer loop of the third nest: the `x` loop up to `len(grid[0])`. -/
def commitRow (nextGen : List (List Bool)) (g : Grid) (y : Nat) : Option Grid := do
  let row0 ← index g 0
  (List.range row0.length).foldlM (fun g x => commitCell nextGen g y x) g

/-- The third loop nest of `nextGeneration`: copy `nextGen` into the check
boxes. -/
def commitNextGen (grid : Grid) (nextGen : List (List Bool)) : Option Grid :=
  (List.range grid.length).foldlM (fun g y => commitRow nextGen g y) grid

/-- `nextGeneration`: allocate, compute every cell from the current grid,
then overwrite the grid. -/
def nextGeneration (grid : Grid) : Option Grid := do
  let nextGen ← computeNextGen grid (allocNextGen grid)
  commitNextGen grid nextGen

/-! ## Simulation controller -/

/-- `nextGeneration` applied `n` times in a row. -/
def nextGenerations : Nat → Grid → Option Grid
  | 0, g => some g
  | n + 1, g => (nextGeneration g).bind (nextGenerations n)

/-- The handler of the "Next Generation" button: `nextGeneration()`, then
`currentGeneration++`. -/
def nextGenerationHandler (w : World) : Option World := do
  let g ← nextGeneration w.grid
  pure { w with grid := g, currentGeneration := w.currentGeneration + 1 }

/-- The handler of the "Reset Simulation" button, for the constants
`gridSizeX` and `gridSizeY`: clear the flag and the counter, then uncheck
`grid[y][x]` for every `y < gridSizeY` and `x < gridSizeX`. -/
def resetHandler (gridSizeX gridSizeY : Nat) (w : World) : Option World := do
  let w1 : World := { w with generating := false, currentGeneration := 0 }
  let g ← (List.range gridSizeY).foldlM (fun (g : Grid) (y : Nat) =>
    (List.range gridSizeX).foldlM (fun (g : Grid) (x : Nat) => setCell g y x false) g) w1.grid
  pure { w1 with grid := g }

/-- The body of the `for thisWorld.generating` loop of `beginGeneration`, for
the constant `generations`: count and step while below the bound or unbounded,
otherwise clear the flag. -/
def beginGenerationBody (generations : Int) (w : World) : Option World :=
  if w.currentGeneration < generations ∨ generations = -1 then do
    let w1 : World := { w with currentGeneration := w.currentGeneration + 1 }
    let g ← nextGeneration w1.grid
    pure { w1 with grid := g }
  else pure { w with generating := false }

/-- The loop `for thisWorld.generating { ... }` of `beginGeneration` run with no
other writer of the state; `fuel` bounds the number of iterations. -/
def beginGeneration (generations : Int) : Nat → World → Except Fault World
  | 0, w => if w.generating then .error .outOfFuel else .ok w
  | fuel + 1, w =>
    if w.generating then
      match beginGenerationBody generations w with
      | none => .error .indexOutOfRange
      | some w1 => beginGeneration generations fuel w1
    else .ok w

/-- The state after `k` consecutive runs of the loop body. -/
def bodyRounds (generations : Int) : Nat → World → Option World
  | 0, w => some w
  | k + 1, w => (beginGenerationBody generations w).bind (bodyRounds generations k)

/-- The handler of the "Start Simulation" button on the `world` fields:
`generating = true`.  Disabling the button and spawning the loop are in
`Sim.step`. -/
def startHandler (w : World) : World :=
  { w with generating := true }

/-- The handler of the "Stop Simulation" button on the `world` fields:
`generating = false`.  Enabling the start button is in `Sim.step`. -/
def stopHandler (w : World) : World :=
  { w with generating := false }

/-- The two panics of the start-up checks in `main`: "World grid dimensions are
invalid ..." and "Generations must be set to -1 (Forever) or a value >= 8". -/
inductive ConfigPanic where
  | gridDimensions
  | generationsValue
deriving DecidableEq

/-- The start-up checks of `main`, with the three constants as arguments. -/
def checkConfiguration (gridSizeX gridSizeY generations : Int) : Except ConfigPanic Unit :=
  if gridSizeX < 8 ∨ gridSizeY < 8 ∨ gridSizeX > 28 ∨ gridSizeY > 28 then
    .error .gridDimensions
  else if generations ≠ -1 ∧ generations < 8 then
    .error .generationsValue
  else .ok ()

/-- Grid construction in `main`: `gridSizeY` rows, each of `gridSizeX` fresh
(unchecked) boxes. -/
def newGrid (gridSizeX gridSizeY : Nat) : Grid :=
  (List.range gridSizeY).map fun _ => (List.range gridSizeX).map fun _ => false

/-- The `world` built by `main`: `generating: false, currentGeneration: 0`. -/
def newWorld (gridSizeX gridSizeY : Nat) : World :=
  { grid := newGrid gridSizeX gridSizeY, generating := false, currentGeneration := 0 }

/-- The running program: the `world`, whether the Start button is enabled, and
how many `beginGeneration` goroutines have been spawned and have not returned.
The goroutines run the same code on the same `world`, so their number is all
that tells them apart. -/
structure Sim where
  world : World
  startEnabled : Bool
  loops : Nat
deriving DecidableEq

/-- What can happen next: a tap on one of the four buttons, or one of the live
goroutines reaching the test `for thisWorld.generating`. -/
inductive Event where
  | tapStart
  | tapStop
  | tapReset
  | tapNext
  | loopTest
deriving DecidableEq

/-- The program as `main` leaves it before the first event. -/
def Sim.init (gridSizeX gridSizeY : Nat) : Sim :=
  { world := newWorld gridSizeX gridSizeY, startEnabled := true, loops := 0 }

/-- One event, each handler run to its end before the next event (the sleep of
the loop is between events; a handler that overlaps a loop iteration is in
`Phase.run`).  A disabled Start button does not call its handler.  `loopTest` with the flag set runs the loop body once; with the flag
clear the goroutine returns. -/
def Sim.step (generations : Int) (gridSizeX gridSizeY : Nat) (e : Event) (s : Sim) :
    Option Sim :=
  match e with
  | .tapStart =>
    if s.startEnabled then
      some { world := startHandler s.world, startEnabled := false, loops := s.loops + 1 }
    else some s
  | .tapStop => some { s with world := stopHandler s.world, startEnabled := true }
  | .tapReset =>
    (resetHandler gridSizeX gridSizeY s.world).map fun w =>
      { s with world := w, startEnabled := true }
  | .tapNext => (nextGenerationHandler s.world).map fun w => { s with world := w }
  | .loopTest =>
    if s.loops = 0 then some s
    else if s.world.generating then
      (beginGenerationBody generations s.world).map fun w => { s with world := w }
    else some { s with loops := s.loops - 1 }

/-- Whether event `e` in state `s` completes a step: a tap on Next Generation,
or a loop test that finds the flag set and the counter below the bound (or no
bound). -/
def Sim.completesStep (generations : Int) (e : Event) (s : Sim) : Bool :=
  match e with
  | .tapNext => true
  | .loopTest =>
    decide (s.loops ≠ 0) && s.world.generating &&
      decide (s.world.currentGeneration < generations ∨ generations = -1)
  | _ => false

/-- A sequence of events from state `s`: the state reached, together with the
number of steps completed on the way. -/
def Sim.run (generations : Int) (gridSizeX gridSizeY : Nat) :
    List Event → Sim → Option (Sim × Nat)
  | [], s => some (s, 0)
  | e :: es, s =>
    (Sim.step generations gridSizeX gridSizeY e s).bind fun s1 =>
      (Sim.run generations gridSizeX gridSizeY es s1).map fun r =>
        (r.1, r.2 + (if Sim.completesStep generations e s then 1 else 0))

/-- A completed step: the Next Generation handler, or one iteration of the loop
of `beginGeneration`. -/
inductive StepOp where
  | singleStep
  | loopTick
deriving DecidableEq

/-- One operation run from start to end with nothing else running meanwhile.
The loop runs its body only when its test `for thisWorld.generating` finds the
flag set. -/
def StepOp.run (generations : Int) (op : StepOp) (w : World) : Option World :=
  match op with
  | .singleStep => nextGenerationHandler w
  | .loopTick => if w.generating then beginGenerationBody generations w else some w

/-- Operations run one after another, none overlapping the next. -/
def runSteps (generations : Int) : List StepOp → World → Option World
  | [], w => some w
  | op :: ops, w => (StepOp.run generations op w).bind (runSteps generations ops)

/-- The Next Generation handler (on the UI goroutine) and a loop iteration (on
the goroutine of `beginGeneration`) both inside their work on the same `world`:
each call of `nextGeneration` has its own local `nextGen`, held here between
its compute nest and its commit nest. -/
structure Overlap where
  world : World
  handlerNextGen : Option (List (List Bool))
  loopNextGen : Option (List (List Bool))
deriving DecidableEq

/-- The pieces of the two operations, in the order each goroutine runs its own:
the handler allocates and computes `nextGen`, commits it, then counts; a loop
iteration tests flag and bound and counts, then allocates and computes, then
commits. -/
inductive Phase where
  | handlerCompute
  | handlerCommit
  | handlerCount
  | loopCount
  | loopCompute
  | loopCommit
deriving DecidableEq

/-- One piece run to its end on the shared `world`.  A commit without a
computed `nextGen` is not a run of the program (`none`), and so is a loop count
that fails the tests of the loop. -/
def Phase.run (generations : Int) (p : Phase) (s : Overlap) : Option Overlap :=
  match p with
  | .handlerCompute =>
    (computeNextGen s.world.grid (allocNextGen s.world.grid)).map fun nextGen =>
      { s with handlerNextGen := some nextGen }
  | .handlerCommit =>
    s.handlerNextGen.bind fun nextGen =>
      (commitNextGen s.world.grid nextGen).map fun g =>
        { s with world := { s.world with grid := g }, handlerNextGen := none }
  | .handlerCount =>
    some { s with world :=
      { s.world with currentGeneration := s.world.currentGeneration + 1 } }
  | .loopCount =>
    if s.world.generating ∧
        (s.world.currentGeneration < generations ∨ generations = -1) then
      some { s with world :=
        { s.world with currentGeneration := s.world.currentGeneration + 1 } }
    else none
  | .loopCompute =>
    (computeNextGen s.world.grid (allocNextGen s.world.grid)).map fun nextGen =>
      { s with loopNextGen := some nextGen }
  | .loopCommit =>
    s.loopNextGen.bind fun nextGen =>
      (commitNextGen s.world.grid nextGen).map fun g =>
        { s with world := { s.world with grid := g }, loopNextGen := none }

/-- A schedule: pieces of the two goroutines in the order they happen. -/
def runPhases (generations : Int) : List Phase → Overlap → Option Overlap
  | [], s => some s
  | p :: ps, s => (Phase.run generations p s).bind (runPhases generations ps)

/-! ## Vocabulary of the properties -/

/-- The grid has `h` rows and every row has `w` columns. -/
def Rect (g : Grid) (w h : Nat) : Prop :=
  g.length = h ∧ ∀ row ∈ g, row.length = w

/-- The state of the cell in column `x` of row `y`; `none` off the grid. -/
def cellAt (g : Grid) (x y : Int) : Option Bool :=
  (index g y).bind fun row => index row x

/-- The eight offsets `{-1,0,1} × {-1,0,1}` without `(0,0)`. -/
def neighbourOffsets : List (Int × Int) :=
  (List.product offsetRange offsetRange).filter fun d => decide (d ≠ (0, 0))

/-- The neighbour count in the words of the specification: the number of
offsets `(dx, dy)` other than `(0,0)` with `0 ≤ x+dx < w`, `0 ≤ y+dy < h` and a
live cell at `(x+dx, y+dy)`. -/
def liveNeighbourCount (g : Grid) (w h : Nat) (x y : Int) : Nat :=
  (neighbourOffsets.filter fun d =>
    decide (0 ≤ x + d.1 ∧ x + d.1 < w ∧ 0 ≤ y + d.2 ∧ y + d.2 < h ∧
      cellAt g (x + d.1) (y + d.2) = some true)).length

/-- The contribution of one neighbour position to the count. -/
def nb (g : Grid) (x y : Int) : Int :=
  if cellAt g x y = some true then 1 else 0

/-- The sum accumulated by the offset loops, in loop order. -/
def neighbourSum (g : Grid) (x y : Int) : Int :=
  nb g (x + -1) (y + -1) + nb g (x + 0) (y + -1) + nb g (x + 1) (y + -1)
    + nb g (x + -1) (y + 0) + nb g (x + 1) (y + 0)
    + nb g (x + -1) (y + 1) + nb g (x + 0) (y + 1) + nb g (x + 1) (y + 1)

/-- The rule of `nextGeneration` at cell `(x, y)`, read on the grid `g`:
`neighbors == 3 || (neighbors == 2 && grid[y][x].Checked)`. -/
def nextCell (g : Grid) (x y : Int) : Bool :=
  decide (neighbourSum g x y = 3) ||
    (decide (neighbourSum g x y = 2) && decide (cellAt g x y = some true))

/-- The 5x5 grid with live cells `(1,2)`, `(2,2)`, `(3,2)`. -/
def blinker5 : Grid :=
  [[false, false, false, false, false],
   [false, false, false, false, false],
   [false, true, true, true, false],
   [false, false, false, false, false],
   [false, false, false, false, false]]

/-- The grid of `h` rows and `w` columns whose cell `(a, b)` is `p a b`. -/
def gridOf (w h : Nat) (p : Nat → Nat → Bool) : Grid :=
  (List.range h).map fun b => (List.range w).map fun a => p a b

/-- The `w × h` grid whose only live cells are `(x-1, y)`, `(x, y)`, `(x+1, y)`:
a horizontal blinker centred at `(x, y)`. -/
def blinkerGrid (w h x y : Nat) : Grid :=
  gridOf w h fun a b => decide (b = y ∧ (a + 1 = x ∨ a = x ∨ a = x + 1))

/-- The `w × h` grid whose only live cells are `(x, y-1)`, `(x, y)`, `(x, y+1)`:
a vertical blinker centred at `(x, y)`. -/
def blinkerGridV (w h x y : Nat) : Grid :=
  gridOf w h fun a b => decide (a = x ∧ (b + 1 = y ∨ b = y ∨ b = y + 1))

/-- The left-right mirror image of a grid: every row reversed. -/
def mirrorLR (g : Grid) : Grid :=
  g.map List.reverse

/-- The top-bottom mirror image of a grid: the rows in reverse order. -/
def mirrorTB (g : Grid) : Grid :=
  g.reverse

/-- The transpose of a grid: one row per column of `g` (as many as row 0 has),
one column per row of `g`, and cell `(a, b)` holding cell `(b, a)` of `g`. -/
def transposeGrid (g : Grid) : Grid :=
  gridOf g.length (g.headD []).length fun a b => (cellAt g b a).getD false

/-- The grid of `h` rows and `w` columns with every cell dead. -/
def deadGrid (w h : Nat) : Grid :=
  List.replicate h (List.replicate w false)

/-! ## Slice access lemmas -/

theorem index_natCast {α : Type} (s : List α) (n : Nat) : index s (n : Int) = s[n]? := by
  simp [index]

theorem index_eq_none_of_neg {α : Type} (s : List α) (i : Int) (h : i < 0) : index s i = none := by
  simp [index, not_le.mpr h]

theorem index_eq_none_of_le {α : Type} (s : List α) (i : Int) (h : (s.length : Int) ≤ i) :
    index s i = none := by
  unfold index
  split
  · rw [List.getElem?_eq_none]
    omega
  · rfl

theorem index_eq_some_of_lt {α : Type} (s : List α) (i : Int) (h0 : 0 ≤ i)
    (h : i < (s.length : Int)) : ∃ a, index s i = some a ∧ a ∈ s := by
  have hlt : i.toNat < s.length := by omega
  refine ⟨s[i.toNat], ?_, List.getElem_mem _⟩
  simp [index, h0, List.getElem?_eq_getElem hlt]

theorem Rect.row_length {g : Grid} {w h : Nat} (hg : Rect g w h) {row : List Bool}
    (hrow : row ∈ g) : row.length = w := hg.2 row hrow

theorem Rect.index_row {g : Grid} {w h : Nat} (hg : Rect g w h) (y : Int) (h0 : 0 ≤ y)
    (hy : y < h) : ∃ row, index g y = some row ∧ row.length = w := by
  obtain ⟨row, hr, hmem⟩ := index_eq_some_of_lt g y h0 (by rw [hg.1]; exact hy)
  exact ⟨row, hr, hg.2 row hmem⟩

theorem Rect.cellAt_some {g : Grid} {w h : Nat} (hg : Rect g w h) (x y : Int)
    (hx0 : 0 ≤ x) (hx : x < w) (hy0 : 0 ≤ y) (hy : y < h) : ∃ c, cellAt g x y = some c := by
  obtain ⟨row, hr, hlen⟩ := hg.index_row y hy0 hy
  obtain ⟨c, hc, _⟩ := index_eq_some_of_lt row x hx0 (by rw [hlen]; exact hx)
  exact ⟨c, by simp [cellAt, hr, hc]⟩

theorem Rect.cellAt_none {g : Grid} {w h : Nat} (hg : Rect g w h) (x y : Int)
    (hout : x < 0 ∨ (w : Int) ≤ x ∨ y < 0 ∨ (h : Int) ≤ y) : cellAt g x y = none := by
  unfold cellAt
  by_cases hy : 0 ≤ y ∧ y < h
  · obtain ⟨row, hr, hlen⟩ := hg.index_row y hy.1 hy.2
    rw [hr]
    simp only [Option.some_bind]
    rcases hout with hx | hx | hx | hx
    · exact index_eq_none_of_neg _ _ hx
    · exact index_eq_none_of_le _ _ (by rw [hlen]; exact hx)
    · omega
    · omega
  · have : index g y = none := by
      by_cases h0 : 0 ≤ y
      · exact index_eq_none_of_le _ _ (by rw [hg.1]; omega)
      · exact index_eq_none_of_neg _ _ (by omega)
    simp [this]

theorem checkNeighbor_rect {g : Grid} {w h : Nat} (hg : Rect g w h) (x y dx dy : Int) :
    checkNeighbor g x y dx dy = some (nb g (x + dx) (y + dy)) := by
  unfold checkNeighbor nb
  by_cases hy : 0 ≤ y + dy ∧ y + dy < (g.length : Int)
  · rw [if_pos hy]
    have hy' : y + dy < (h : Int) := by rw [← hg.1]; exact hy.2
    have hpos : (0 : Int) < h := by omega
    obtain ⟨row0, hr0, hlen0⟩ := hg.index_row 0 le_rfl hpos
    by_cases hx : 0 ≤ x + dx ∧ x + dx < (w : Int)
    · obtain ⟨row, hr, hlen⟩ := hg.index_row (y + dy) hy.1 hy'
      obtain ⟨c, hc, _⟩ := index_eq_some_of_lt row (x + dx) hx.1 (by rw [hlen]; exact hx.2)
      have hcell : cellAt g (x + dx) (y + dy) = some c := by simp [cellAt, hr, hc]
      cases c <;> simp [hr0, hlen0, hx, hr, hc, hcell]
    · have hcell : cellAt g (x + dx) (y + dy) = none :=
        hg.cellAt_none _ _ (by omega)
      simp [hr0, hlen0, hx, hcell]
  · rw [if_neg hy]
    have hcell : cellAt g (x + dx) (y + dy) = none :=
      hg.cellAt_none _ _ (by rw [← hg.1]; omega)
    simp [hcell]

theorem getNumberOfLivingNeighbors_rect {g : Grid} {w h : Nat} (hg : Rect g w h) (x y : Int) :
    getNumberOfLivingNeighbors g x y = some (neighbourSum g x y) := by
  simp [getNumberOfLivingNeighbors, offsetRange, checkNeighbor_rect hg, neighbourSum]

/-! ## For-loops -/

/-- An invariant carried through `for i := 0; i < n; i++`: when every
iteration below `n` succeeds and moves the invariant from `i` to `i + 1`, the
whole loop succeeds and ends in the invariant at `n`. -/
theorem foldlM_range_inv {σ : Type} (body : σ → Nat → Option σ) (Inv : Nat → σ → Prop)
    (n : Nat) (s0 : σ) (h0 : Inv 0 s0)
    (hstep : ∀ i s, i < n → Inv i s → ∃ s', body s i = some s' ∧ Inv (i + 1) s') :
    ∃ s', (List.range n).foldlM body s0 = some s' ∧ Inv n s' := by
  induction n with
  | zero => exact ⟨s0, by simp, h0⟩
  | succ k ih =>
    obtain ⟨s1, hs1, hinv1⟩ := ih fun i s hi hI => hstep i s (by omega) hI
    obtain ⟨s2, hs2, hinv2⟩ := hstep k s1 (by omega) hinv1
    refine ⟨s2, ?_, hinv2⟩
    rw [List.range_succ, List.foldlM_append, hs1]
    simp [hs2]

/-! ## Writing one cell -/

theorem cellAt_natCast (g : Grid) (a b : Nat) :
    cellAt g (a : Int) (b : Int) = g[b]?.bind fun row => row[a]? := by
  simp [cellAt, index_natCast]

theorem setCell_rect {g : Grid} {w h : Nat} (hg : Rect g w h) (x y : Nat) (hx : x < w)
    (hy : y < h) (v : Bool) :
    ∃ g', setCell g (y : Int) (x : Int) v = some g' ∧ Rect g' w h ∧
      ∀ a b : Nat, cellAt g' a b = if a = x ∧ b = y then some v else cellAt g a b := by
  have hyl : y < g.length := by rw [hg.1]; exact hy
  have hrow : (g[y]).length = w := hg.2 _ (List.getElem_mem _)
  have hxl : x < (g[y]).length := by rw [hrow]; exact hx
  refine ⟨g.set y ((g[y]).set x v), ?_, ⟨?_, ?_⟩, ?_⟩
  · simp [setCell, index_natCast, List.getElem?_eq_getElem hyl, List.getElem?_eq_getElem hxl]
  · simp [hg.1]
  · intro row hmem
    rcases List.mem_or_eq_of_mem_set hmem with hm | hm
    · exact hg.2 row hm
    · rw [hm, List.length_set]; exact hrow
  · intro a b
    rw [cellAt_natCast, cellAt_natCast]
    by_cases hb : b = y
    · subst hb
      simp only [List.getElem?_set_self hyl, Option.some_bind, List.getElem?_eq_getElem hyl]
      by_cases ha : a = x
      · subst ha
        simp [List.getElem?_set_self hxl]
      · simp [ha, List.getElem?_set_ne (Ne.symm ha)]
    · simp [hb, List.getElem?_set_ne (Ne.symm hb)]

/-- Two grids of the same shape with the same cells are the same grid. -/
theorem Rect.ext {g1 g2 : Grid} {w h : Nat} (h1 : Rect g1 w h) (h2 : Rect g2 w h)
    (hcell : ∀ a b : Nat, a < w → b < h → cellAt g1 a b = cellAt g2 a b) : g1 = g2 := by
  apply List.ext_getElem (by rw [h1.1, h2.1])
  intro b hb1 hb2
  have hr1 : (g1[b]).length = w := h1.2 _ (List.getElem_mem _)
  have hr2 : (g2[b]).length = w := h2.2 _ (List.getElem_mem _)
  apply List.ext_getElem (by rw [hr1, hr2])
  intro a ha1 ha2
  have hc := hcell a b (by rw [← hr1]; exact ha1) (by rw [← h1.1]; exact hb1)
  rw [cellAt_natCast, cellAt_natCast] at hc
  simpa [List.getElem?_eq_getElem hb1, List.getElem?_eq_getElem hb2,
    List.getElem?_eq_getElem ha1, List.getElem?_eq_getElem ha2] using hc

theorem allocNextGen_rect {g : Grid} {w h : Nat} (hg : Rect g w h) :
    Rect (allocNextGen g) w h := by
  refine ⟨by simp [allocNextGen, hg.1], ?_⟩
  intro row hmem
  simp only [allocNextGen, List.mem_map] at hmem
  obtain ⟨r, hr, rfl⟩ := hmem
  simp [hg.2 r hr]

theorem deadGrid_rect (w h : Nat) : Rect (deadGrid w h) w h := by
  refine ⟨by simp [deadGrid], ?_⟩
  intro row hmem
  rw [deadGrid, List.mem_replicate] at hmem
  simp [hmem.2]

theorem cellAt_deadGrid (w h : Nat) (a b : Nat) (ha : a < w) (hb : b < h) :
    cellAt (deadGrid w h) a b = some false := by
  simp [cellAt_natCast, deadGrid, List.getElem?_replicate, ha, hb]

/-! ## Loop nests that visit every cell -/

/-- A loop nest over rows `0..h-1` and columns `0..w-1` whose cell step
overwrites exactly cell `(x, y)` with `val x y` leaves a grid of the same shape
holding `val` everywhere. -/
theorem fill_rows {w h : Nat} (row : Grid → Nat → Option Grid)
    (cell : Grid → Nat → Nat → Option Grid) (val : Nat → Nat → Bool)
    (hrow : ∀ s y, Rect s w h → y < h →
      row s y = (List.range w).foldlM (fun s x => cell s y x) s)
    (hcell : ∀ s x y, Rect s w h → x < w → y < h →
      ∃ s', cell s y x = some s' ∧ Rect s' w h ∧
        ∀ a b : Nat, cellAt s' a b = if a = x ∧ b = y then some (val x y) else cellAt s a b)
    (s0 : Grid) (hs0 : Rect s0 w h) :
    ∃ s', (List.range h).foldlM row s0 = some s' ∧ Rect s' w h ∧
      (∀ a b : Nat, a < w → b < h → cellAt s' a b = some (val a b)) := by
  have key := foldlM_range_inv row
    (fun y s => Rect s w h ∧ ∀ a b : Nat, a < w → b < y → cellAt s a b = some (val a b))
    h s0 ⟨hs0, fun a b _ hb => absurd hb (Nat.not_lt_zero b)⟩ ?_
  · obtain ⟨s', hs', hrect, hall⟩ := key
    exact ⟨s', hs', hrect, hall⟩
  · intro y s hy ⟨hs, hdone⟩
    rw [hrow s y hs hy]
    have inner := foldlM_range_inv (fun s x => cell s y x)
      (fun x s => Rect s w h ∧ (∀ a b : Nat, a < w → b < y → cellAt s a b = some (val a b)) ∧
        ∀ a : Nat, a < x → cellAt s a y = some (val a y))
      w s ⟨hs, hdone, fun a ha => absurd ha (Nat.not_lt_zero a)⟩ ?_
    · obtain ⟨s', hs', hrect, hprev, hcur⟩ := inner
      refine ⟨s', hs', hrect, ?_⟩
      intro a b ha hb
      rcases Nat.lt_succ_iff_lt_or_eq.mp hb with hlt | heq
      · exact hprev a b ha hlt
      · rw [heq]; exact hcur a ha
    · intro x s1 hx ⟨hs1, hprev, hcur⟩
      obtain ⟨s2, hs2, hrect2, hget⟩ := hcell s1 x y hs1 hx hy
      refine ⟨s2, hs2, hrect2, ?_, ?_⟩
      · intro a b ha hb
        rw [hget a b, if_neg (by omega)]
        exact hprev a b ha hb
      · intro a ha
        rw [hget a y]
        by_cases hax : a = x
        · simp [hax]
        · rw [if_neg (by omega)]
          exact hcur a (by omega)

theorem computeCell_rect {g : Grid} {w h : Nat} (hg : Rect g w h) (s : Grid) (x y : Nat)
    (hs : Rect s w h) (hx : x < w) (hy : y < h) :
    ∃ s', computeCell g s y x = some s' ∧ Rect s' w h ∧
      ∀ a b : Nat, cellAt s' a b = if a = x ∧ b = y then some (nextCell g x y) else cellAt s a b := by
  obtain ⟨row, hr, hlen⟩ := hg.index_row y (by omega) (by exact_mod_cast hy)
  obtain ⟨c, hrc, _⟩ := index_eq_some_of_lt row x (by omega)
    (by rw [hlen]; exact_mod_cast hx)
  have hc : cellAt g x y = some c := by simp [cellAt, hr, hrc]
  have hval : (do
        let neighbors ← getNumberOfLivingNeighbors g x y
        let live ←
          if neighbors = 3 then pure true
          else if neighbors = 2 then do
            let row ← index g y
            index row x
          else pure false
        setCell s y x live) = setCell s y x (nextCell g x y) := by
    rw [getNumberOfLivingNeighbors_rect hg]
    simp only [Option.bind_eq_bind, Option.some_bind, Option.pure_def]
    unfold nextCell
    by_cases h3 : neighbourSum g x y = 3
    · simp [h3]
    · by_cases h2 : neighbourSum g x y = 2
      · rw [if_neg h3, if_pos h2, hr, hc]
        cases c <;> simp [h2, hrc]
      · simp [h3, h2]
  unfold computeCell
  rw [hval]
  exact setCell_rect hs x y hx hy _

theorem computeNextGen_rect {g : Grid} {w h : Nat} (hg : Rect g w h) (s0 : Grid)
    (hs0 : Rect s0 w h) :
    ∃ s', computeNextGen g s0 = some s' ∧ Rect s' w h ∧
      ∀ a b : Nat, a < w → b < h → cellAt s' a b = some (nextCell g a b) := by
  unfold computeNextGen
  rw [hg.1]
  refine fill_rows (fun s y => computeRow g s y) (fun s y x => computeCell g s y x)
    (fun a b => nextCell g a b) ?_ ?_ s0 hs0
  · intro s y _ hy
    obtain ⟨row0, hr0, hlen0⟩ := hg.index_row 0 le_rfl (by omega)
    simp [computeRow, hr0, hlen0]
  · intro s x y hs hx hy
    exact computeCell_rect hg s x y hs hx hy

theorem commitCell_rect {ng : Grid} {w h : Nat} (hng : Rect ng w h) (s : Grid) (x y : Nat)
    (hs : Rect s w h) (hx : x < w) (hy : y < h) (v : Bool) (hv : cellAt ng x y = some v) :
    ∃ s', commitCell ng s y x = some s' ∧ Rect s' w h ∧
      ∀ a b : Nat, cellAt s' a b = if a = x ∧ b = y then some v else cellAt s a b := by
  obtain ⟨row, hr, hlen⟩ := hng.index_row y (by omega) (by exact_mod_cast hy)
  have hv' : index row (x : Int) = some v := by simpa [cellAt, hr] using hv
  have : commitCell ng s y x = setCell s y x v := by
    simp [commitCell, hr, hv']
  rw [this]
  exact setCell_rect hs x y hx hy v

theorem commitNextGen_rect {g ng : Grid} {w h : Nat} (hg : Rect g w h) (hng : Rect ng w h)
    (val : Nat → Nat → Bool)
    (hval : ∀ a b : Nat, a < w → b < h → cellAt ng a b = some (val a b)) :
    ∃ s', commitNextGen g ng = some s' ∧ Rect s' w h ∧
      ∀ a b : Nat, a < w → b < h → cellAt s' a b = some (val a b) := by
  unfold commitNextGen
  rw [hg.1]
  refine fill_rows (fun s y => commitRow ng s y) (fun s y x => commitCell ng s y x)
    val ?_ ?_ g hg
  · intro s y hs hy
    obtain ⟨row0, hr0, hlen0⟩ := hs.index_row 0 le_rfl (by omega)
    simp [commitRow, hr0, hlen0]
  · intro s x y hs hx hy
    exact commitCell_rect hng s x y hs hx hy _ (hval x y hx hy)

/-- On a rectangular grid `nextGeneration` returns a grid of the same shape
whose every cell is the rule read on the input grid. -/
theorem nextGeneration_rect {g : Grid} {w h : Nat} (hg : Rect g w h) :
    ∃ g', nextGeneration g = some g' ∧ Rect g' w h ∧
      ∀ a b : Nat, a < w → b < h → cellAt g' a b = some (nextCell g a b) := by
  obtain ⟨ng, hng, hrect, hcells⟩ := computeNextGen_rect hg _ (allocNextGen_rect hg)
  obtain ⟨g', hg', hrect', hcells'⟩ := commitNextGen_rect hg hrect _ hcells
  exact ⟨g', by simp [nextGeneration, hng, hg'], hrect', hcells'⟩

/-! ## Neighbour counting against the specification's count -/

theorem nb_nonneg (g : Grid) (x y : Int) : 0 ≤ nb g x y := by
  unfold nb; split <;> decide

theorem nb_le_one (g : Grid) (x y : Int) : nb g x y ≤ 1 := by
  unfold nb; split <;> decide

theorem neighbourSum_bounds (g : Grid) (x y : Int) :
    0 ≤ neighbourSum g x y ∧ neighbourSum g x y ≤ 8 := by
  unfold neighbourSum
  have h1 := nb_nonneg g (x + -1) (y + -1); have k1 := nb_le_one g (x + -1) (y + -1)
  have h2 := nb_nonneg g (x + 0) (y + -1); have k2 := nb_le_one g (x + 0) (y + -1)
  have h3 := nb_nonneg g (x + 1) (y + -1); have k3 := nb_le_one g (x + 1) (y + -1)
  have h4 := nb_nonneg g (x + -1) (y + 0); have k4 := nb_le_one g (x + -1) (y + 0)
  have h5 := nb_nonneg g (x + 1) (y + 0); have k5 := nb_le_one g (x + 1) (y + 0)
  have h6 := nb_nonneg g (x + -1) (y + 1); have k6 := nb_le_one g (x + -1) (y + 1)
  have h7 := nb_nonneg g (x + 0) (y + 1); have k7 := nb_le_one g (x + 0) (y + 1)
  have h8 := nb_nonneg g (x + 1) (y + 1); have k8 := nb_le_one g (x + 1) (y + 1)
  omega

theorem neighbourOffsets_eq :
    neighbourOffsets = [(-1, -1), (-1, 0), (-1, 1), (0, -1), (0, 1), (1, -1), (1, 0), (1, 1)] := by
  decide

theorem length_filter_eq_sum {α : Type} (p : α → Bool) (l : List α) :
    (((l.filter p).length : Nat) : Int) = (l.map fun d => if p d then (1 : Int) else 0).sum := by
  induction l with
  | nil => simp
  | cons a t ih =>
    by_cases ha : p a
    · simp [List.filter_cons, ha, ih]; omega
    · simp [List.filter_cons, ha, ih]

theorem Rect.nb_eq {g : Grid} {w h : Nat} (hg : Rect g w h) (a b : Int) :
    (if decide (0 ≤ a ∧ a < w ∧ 0 ≤ b ∧ b < h ∧ cellAt g a b = some true) = true
      then (1 : Int) else 0) = nb g a b := by
  unfold nb
  by_cases hin : 0 ≤ a ∧ a < (w : Int) ∧ 0 ≤ b ∧ b < (h : Int)
  · by_cases hc : cellAt g a b = some true
    · simp [hin, hc]
    · simp [hc]
  · have hnone : cellAt g a b = none := hg.cellAt_none a b (by omega)
    simp [hnone]

theorem neighbourSum_eq_count {g : Grid} {w h : Nat} (hg : Rect g w h) (x y : Int) :
    neighbourSum g x y = (liveNeighbourCount g w h x y : Int) := by
  unfold liveNeighbourCount
  rw [length_filter_eq_sum, neighbourOffsets_eq]
  simp only [List.map_cons, List.map_nil, List.sum_cons, List.sum_nil, hg.nb_eq]
  unfold neighbourSum
  omega

theorem blinker5_rect : Rect blinker5 5 5 := by
  unfold Rect blinker5; decide

theorem cellAt_deadGrid_ne (w h : Nat) (a b : Int) : cellAt (deadGrid w h) a b ≠ some true := by
  by_cases hin : 0 ≤ a ∧ a < (w : Int) ∧ 0 ≤ b ∧ b < (h : Int)
  · obtain ⟨a', rfl⟩ := Int.eq_ofNat_of_zero_le hin.1
    obtain ⟨b', rfl⟩ := Int.eq_ofNat_of_zero_le hin.2.2.1
    rw [cellAt_deadGrid w h a' b' (by omega) (by omega)]
    simp
  · rw [(deadGrid_rect w h).cellAt_none a b (by omega)]
    simp

theorem nextCell_deadGrid (w h : Nat) (a b : Int) : nextCell (deadGrid w h) a b = false := by
  have hnb : ∀ p q : Int, nb (deadGrid w h) p q = 0 := fun p q => by
    simp [nb, cellAt_deadGrid_ne]
  simp [nextCell, neighbourSum, hnb]

/-! ## The step rule (C1 to C5) -/

/-- C1: on a rectangular grid `nextGeneration` returns a grid of the same
shape in which every in-bounds cell `(x, y)` is live exactly when the count
that `getNumberOfLivingNeighbors` gives on the input grid is 3, or the cell was
live in the input grid and that count is 2; count and old state are both read
on the input grid alone. -/
theorem nextGeneration_applies_rule (g : Grid) (w h : Nat) (hg : Rect g w h) :
    ∃ g', nextGeneration g = some g' ∧ Rect g' w h ∧
      ∀ x y : Nat, x < w → y < h →
        ∃ n, getNumberOfLivingNeighbors g x y = some n ∧
          cellAt g' x y = some (decide (n = 3 ∨ (cellAt g x y = some true ∧ n = 2))) := by
  obtain ⟨g', hstep, hrect, hcells⟩ := nextGeneration_rect hg
  refine ⟨g', hstep, hrect, fun x y hx hy => ?_⟩
  refine ⟨neighbourSum g x y, getNumberOfLivingNeighbors_rect hg x y, ?_⟩
  rw [hcells x y hx hy]
  congr 1
  unfold nextCell
  by_cases h3 : neighbourSum g x y = 3 <;> by_cases h2 : neighbourSum g x y = 2 <;>
    by_cases hc : cellAt g x y = some true <;> simp [h3, h2, hc]

theorem nextGeneration_applies_rule_witness :
    Rect blinker5 5 5 ∧
    ∃ g', nextGeneration blinker5 = some g' ∧ Rect g' 5 5 ∧
      ∀ x y : Nat, x < 5 → y < 5 →
        ∃ n, getNumberOfLivingNeighbors blinker5 x y = some n ∧
          cellAt g' x y =
            some (decide (n = 3 ∨ (cellAt blinker5 x y = some true ∧ n = 2))) :=
  ⟨blinker5_rect, nextGeneration_applies_rule blinker5 5 5 blinker5_rect⟩

/-- C2: on a rectangular grid of width `w` and height `h`, at every in-bounds
`(x, y)`, `getNumberOfLivingNeighbors` returns the number of offsets other than
`(0,0)` in `{-1,0,1} × {-1,0,1}` that land inside the grid on a live cell; an
offset that lands outside the grid makes `checkNeighbor` return 0. -/
theorem getNumberOfLivingNeighbors_counts (g : Grid) (w h : Nat) (hg : Rect g w h)
    (x y : Nat) (hx : x < w) (hy : y < h) :
    getNumberOfLivingNeighbors g x y = some (liveNeighbourCount g w h x y : Int) ∧
      ∀ dx dy : Int, dx ∈ offsetRange → dy ∈ offsetRange →
        ¬ (0 ≤ (x : Int) + dx ∧ (x : Int) + dx < w ∧ 0 ≤ (y : Int) + dy ∧ (y : Int) + dy < h) →
        checkNeighbor g x y dx dy = some 0 := by
  refine ⟨?_, fun dx dy _ _ hout => ?_⟩
  · rw [getNumberOfLivingNeighbors_rect hg, neighbourSum_eq_count hg]
  · rw [checkNeighbor_rect hg, nb, hg.cellAt_none _ _ (by omega)]
    simp

theorem getNumberOfLivingNeighbors_counts_witness :
    Rect blinker5 5 5 ∧ (2 : Nat) < 5 ∧ (1 : Nat) < 5 ∧
    (getNumberOfLivingNeighbors blinker5 (2 : Nat) (1 : Nat)
        = some (liveNeighbourCount blinker5 5 5 (2 : Nat) (1 : Nat) : Int) ∧
      ∀ dx dy : Int, dx ∈ offsetRange → dy ∈ offsetRange →
        ¬ (0 ≤ ((2 : Nat) : Int) + dx ∧ ((2 : Nat) : Int) + dx < (5 : Nat) ∧
            0 ≤ ((1 : Nat) : Int) + dy ∧ ((1 : Nat) : Int) + dy < (5 : Nat)) →
        checkNeighbor blinker5 (2 : Nat) (1 : Nat) dx dy = some 0) :=
  ⟨blinker5_rect, by decide, by decide,
    getNumberOfLivingNeighbors_counts blinker5 5 5 blinker5_rect 2 1 (by decide) (by decide)⟩

/-- C3: on a rectangular grid, an in-bounds cell that is live before the step
is live after one `nextGeneration` when its neighbour count is 2 or 3, and dead
when the count is 0, 1, or at least 4; the count always lies in 0..8. -/
theorem live_cell_fate (g : Grid) (w h : Nat) (hg : Rect g w h) (x y : Nat) (hx : x < w)
    (hy : y < h) (hlive : cellAt g x y = some true) :
    ∃ g' n, nextGeneration g = some g' ∧ getNumberOfLivingNeighbors g x y = some n ∧
      0 ≤ n ∧ n ≤ 8 ∧
      ((n = 2 ∨ n = 3) → cellAt g' x y = some true) ∧
      ((n = 0 ∨ n = 1 ∨ 4 ≤ n) → cellAt g' x y = some false) := by
  obtain ⟨g', hstep, _, hcells⟩ := nextGeneration_rect hg
  have hb := neighbourSum_bounds g x y
  refine ⟨g', neighbourSum g x y, hstep, getNumberOfLivingNeighbors_rect hg x y, hb.1, hb.2,
    ?_, ?_⟩
  · intro hn
    rw [hcells x y hx hy, nextCell]
    rcases hn with hn | hn <;> simp [hn, hlive]
  · intro hn
    rw [hcells x y hx hy, nextCell]
    have h3 : neighbourSum g x y ≠ 3 := by omega
    have h2 : neighbourSum g x y ≠ 2 := by omega
    simp [h3, h2]

theorem live_cell_fate_witness :
    Rect blinker5 5 5 ∧ (2 : Nat) < 5 ∧ (2 : Nat) < 5 ∧
    cellAt blinker5 (2 : Nat) (2 : Nat) = some true ∧
    ∃ g' n, nextGeneration blinker5 = some g' ∧
      getNumberOfLivingNeighbors blinker5 (2 : Nat) (2 : Nat) = some n ∧
      0 ≤ n ∧ n ≤ 8 ∧
      ((n = 2 ∨ n = 3) → cellAt g' (2 : Nat) (2 : Nat) = some true) ∧
      ((n = 0 ∨ n = 1 ∨ 4 ≤ n) → cellAt g' (2 : Nat) (2 : Nat) = some false) :=
  ⟨blinker5_rect, by decide, by decide, by decide,
    live_cell_fate blinker5 5 5 blinker5_rect 2 2 (by decide) (by decide) (by decide)⟩

/-- C4: on a rectangular grid, an in-bounds cell that is dead before the step
is live after one `nextGeneration` when its neighbour count is exactly 3 and
dead for every other count; the count always lies in 0..8. -/
theorem dead_cell_fate (g : Grid) (w h : Nat) (hg : Rect g w h) (x y : Nat) (hx : x < w)
    (hy : y < h) (hdead : cellAt g x y = some false) :
    ∃ g' n, nextGeneration g = some g' ∧ getNumberOfLivingNeighbors g x y = some n ∧
      0 ≤ n ∧ n ≤ 8 ∧
      (n = 3 → cellAt g' x y = some true) ∧
      (n ≠ 3 → cellAt g' x y = some false) := by
  obtain ⟨g', hstep, _, hcells⟩ := nextGeneration_rect hg
  have hb := neighbourSum_bounds g x y
  refine ⟨g', neighbourSum g x y, hstep, getNumberOfLivingNeighbors_rect hg x y, hb.1, hb.2,
    ?_, ?_⟩
  · intro hn
    rw [hcells x y hx hy, nextCell]
    simp [hn]
  · intro hn
    rw [hcells x y hx hy, nextCell]
    simp [hn, hdead]

theorem dead_cell_fate_witness :
    Rect blinker5 5 5 ∧ (2 : Nat) < 5 ∧ (1 : Nat) < 5 ∧
    cellAt blinker5 (2 : Nat) (1 : Nat) = some false ∧
    ∃ g' n, nextGeneration blinker5 = some g' ∧
      getNumberOfLivingNeighbors blinker5 (2 : Nat) (1 : Nat) = some n ∧
      0 ≤ n ∧ n ≤ 8 ∧
      (n = 3 → cellAt g' (2 : Nat) (1 : Nat) = some true) ∧
      (n ≠ 3 → cellAt g' (2 : Nat) (1 : Nat) = some false) :=
  ⟨blinker5_rect, by decide, by decide, by decide,
    dead_cell_fate blinker5 5 5 blinker5_rect 2 1 (by decide) (by decide) (by decide)⟩

/-- C5: for every width and height in 8..28, one `nextGeneration` of the
all-dead grid of that size returns the all-dead grid of that size. -/
theorem nextGeneration_deadGrid (w h : Nat) (hw : 8 ≤ w ∧ w ≤ 28) (hh : 8 ≤ h ∧ h ≤ 28) :
    nextGeneration (deadGrid w h) = some (deadGrid w h) := by
  obtain ⟨g', hstep, hrect, hcells⟩ := nextGeneration_rect (deadGrid_rect w h)
  rw [hstep]
  congr 1
  apply hrect.ext (deadGrid_rect w h)
  intro a b ha hb
  rw [hcells a b ha hb, nextCell_deadGrid, cellAt_deadGrid w h a b ha hb]

theorem nextGeneration_deadGrid_witness :
    (8 ≤ 8 ∧ 8 ≤ 28) ∧ (8 ≤ 28 ∧ 28 ≤ 28) ∧
    nextGeneration (deadGrid 8 28) = some (deadGrid 8 28) :=
  ⟨by decide, by decide, nextGeneration_deadGrid 8 28 (by decide) (by decide)⟩

/-! ## Blinker (C6) -/

theorem gridOf_rect (w h : Nat) (p : Nat → Nat → Bool) : Rect (gridOf w h p) w h := by
  refine ⟨by simp [gridOf], ?_⟩
  intro row hmem
  simp only [gridOf, List.mem_map] at hmem
  obtain ⟨b, _, rfl⟩ := hmem
  simp

theorem cellAt_gridOf (w h : Nat) (p : Nat → Nat → Bool) (a b : Nat) (ha : a < w) (hb : b < h) :
    cellAt (gridOf w h p) a b = some (p a b) := by
  simp [cellAt_natCast, gridOf, List.getElem?_range, ha, hb]

theorem nb_gridOf (w h : Nat) (p : Nat → Nat → Bool) (a b : Int) :
    nb (gridOf w h p) a b =
      if 0 ≤ a ∧ a < w ∧ 0 ≤ b ∧ b < h ∧ p a.toNat b.toNat = true then 1 else 0 := by
  unfold nb
  by_cases hin : 0 ≤ a ∧ a < (w : Int) ∧ 0 ≤ b ∧ b < (h : Int)
  · obtain ⟨a', rfl⟩ := Int.eq_ofNat_of_zero_le hin.1
    obtain ⟨b', rfl⟩ := Int.eq_ofNat_of_zero_le hin.2.2.1
    rw [cellAt_gridOf w h p a' b' (by omega) (by omega)]
    simp [hin]
  · rw [(gridOf_rect w h p).cellAt_none a b (by omega)]
    have hneg : ¬ (0 ≤ a ∧ a < (w : Int) ∧ 0 ≤ b ∧ b < (h : Int) ∧
        p a.toNat b.toNat = true) := fun hc => hin ⟨hc.1, hc.2.1, hc.2.2.1, hc.2.2.2.1⟩
    rw [if_neg hneg]
    simp

theorem nb_blinkerGrid (w h x y : Nat) (hx : 1 ≤ x ∧ x + 1 < w) (hy : y < h) (a b : Int) :
    nb (blinkerGrid w h x y) a b =
      if b = y then (if (x : Int) - 1 ≤ a ∧ a ≤ (x : Int) + 1 then 1 else 0) else 0 := by
  rw [blinkerGrid, nb_gridOf]
  simp only [decide_eq_true_eq]
  split_ifs <;> omega

theorem nb_blinkerGridV (w h x y : Nat) (hx : x < w) (hy : 1 ≤ y ∧ y + 1 < h) (a b : Int) :
    nb (blinkerGridV w h x y) a b =
      if a = x then (if (y : Int) - 1 ≤ b ∧ b ≤ (y : Int) + 1 then 1 else 0) else 0 := by
  rw [blinkerGridV, nb_gridOf]
  simp only [decide_eq_true_eq]
  split_ifs <;> omega

theorem cellAt_true_iff_nb (g : Grid) (a b : Int) : cellAt g a b = some true ↔ nb g a b = 1 := by
  unfold nb
  split <;> simp [*]

theorem nextCell_blinkerGrid (w h x y : Nat) (hx : 1 ≤ x ∧ x + 1 < w) (hy : 1 ≤ y ∧ y + 1 < h)
    (a b : Int) :
    nextCell (blinkerGrid w h x y) a b =
      decide (a = x ∧ (y : Int) - 1 ≤ b ∧ b ≤ (y : Int) + 1) := by
  have hy' : y < h := by omega
  rw [Bool.eq_iff_iff]
  simp only [nextCell, neighbourSum, cellAt_true_iff_nb, nb_blinkerGrid w h x y hx hy',
    Bool.or_eq_true, Bool.and_eq_true, decide_eq_true_eq, add_zero]
  split_ifs <;> omega

theorem nextCell_blinkerGridV (w h x y : Nat) (hx : 1 ≤ x ∧ x + 1 < w) (hy : 1 ≤ y ∧ y + 1 < h)
    (a b : Int) :
    nextCell (blinkerGridV w h x y) a b =
      decide (b = y ∧ (x : Int) - 1 ≤ a ∧ a ≤ (x : Int) + 1) := by
  have hx' : x < w := by omega
  rw [Bool.eq_iff_iff]
  simp only [nextCell, neighbourSum, cellAt_true_iff_nb, nb_blinkerGridV w h x y hx' hy,
    Bool.or_eq_true, Bool.and_eq_true, decide_eq_true_eq, add_zero]
  split_ifs <;> omega

theorem blinkerGrid_rect (w h x y : Nat) : Rect (blinkerGrid w h x y) w h :=
  gridOf_rect w h _

theorem blinkerGridV_rect (w h x y : Nat) : Rect (blinkerGridV w h x y) w h :=
  gridOf_rect w h _

theorem nextGeneration_blinkerGrid (w h x y : Nat) (hx : 1 ≤ x ∧ x + 1 < w)
    (hy : 1 ≤ y ∧ y + 1 < h) :
    nextGeneration (blinkerGrid w h x y) = some (blinkerGridV w h x y) := by
  obtain ⟨g', hstep, hrect, hcells⟩ := nextGeneration_rect (blinkerGrid_rect w h x y)
  rw [hstep]
  congr 1
  apply hrect.ext (blinkerGridV_rect w h x y)
  intro a b ha hb
  rw [hcells a b ha hb, nextCell_blinkerGrid w h x y hx hy, blinkerGridV,
    cellAt_gridOf w h _ a b ha hb]
  congr 1
  exact decide_eq_decide.mpr (by omega)

theorem nextGeneration_blinkerGridV (w h x y : Nat) (hx : 1 ≤ x ∧ x + 1 < w)
    (hy : 1 ≤ y ∧ y + 1 < h) :
    nextGeneration (blinkerGridV w h x y) = some (blinkerGrid w h x y) := by
  obtain ⟨g', hstep, hrect, hcells⟩ := nextGeneration_rect (blinkerGridV_rect w h x y)
  rw [hstep]
  congr 1
  apply hrect.ext (blinkerGrid_rect w h x y)
  intro a b ha hb
  rw [hcells a b ha hb, nextCell_blinkerGridV w h x y hx hy, blinkerGrid,
    cellAt_gridOf w h _ a b ha hb]
  congr 1
  exact decide_eq_decide.mpr (by omega)

theorem blinkerGridV_ne_blinkerGrid (w h x y : Nat) (hx : x < w) (hy : y + 1 < h) :
    blinkerGridV w h x y ≠ blinkerGrid w h x y := by
  intro heq
  have h1 : cellAt (blinkerGridV w h x y) x (y + 1 : Nat) = some true := by
    rw [blinkerGridV, cellAt_gridOf w h _ x (y + 1) hx hy]
    simp
  have h2 : cellAt (blinkerGrid w h x y) x (y + 1 : Nat) = some false := by
    rw [blinkerGrid, cellAt_gridOf w h _ x (y + 1) hx hy]
    simp
  rw [heq, h2] at h1
  cases h1

/-- C6: in a grid of width `w ≥ 5` and height `h ≥ 5`, the blinker with live
cells `(x-1, y)`, `(x, y)`, `(x+1, y)` and centre `1 ≤ x ≤ w-2`, `1 ≤ y ≤ h-2`
differs from its image under one `nextGeneration` and equals its image under
two successive `nextGeneration` calls. -/
theorem blinker_period_two (w h x y : Nat) (hw : 5 ≤ w) (hh : 5 ≤ h)
    (hx : 1 ≤ x ∧ x ≤ w - 2) (hy : 1 ≤ y ∧ y ≤ h - 2) :
    ∃ g1, nextGeneration (blinkerGrid w h x y) = some g1 ∧
      g1 ≠ blinkerGrid w h x y ∧
      nextGeneration g1 = some (blinkerGrid w h x y) :=
  ⟨blinkerGridV w h x y,
    nextGeneration_blinkerGrid w h x y (by omega) (by omega),
    blinkerGridV_ne_blinkerGrid w h x y (by omega) (by omega),
    nextGeneration_blinkerGridV w h x y (by omega) (by omega)⟩

theorem blinker_period_two_witness :
    blinkerGrid 5 5 2 2 = blinker5 ∧ 5 ≤ 5 ∧ 5 ≤ 5 ∧ (1 ≤ 2 ∧ 2 ≤ 5 - 2) ∧ (1 ≤ 2 ∧ 2 ≤ 5 - 2) ∧
    ∃ g1, nextGeneration (blinkerGrid 5 5 2 2) = some g1 ∧
      g1 ≠ blinkerGrid 5 5 2 2 ∧
      nextGeneration g1 = some (blinkerGrid 5 5 2 2) :=
  ⟨by decide, by decide, by decide, by decide, by decide,
    blinker_period_two 5 5 2 2 (by decide) (by decide) (by decide) (by decide)⟩

/-! ## Controller lemmas -/

theorem nextGenerations_rect {g : Grid} {w h : Nat} (hg : Rect g w h) (n : Nat) :
    ∃ gn, nextGenerations n g = some gn ∧ Rect gn w h := by
  induction n generalizing g with
  | zero => exact ⟨g, rfl, hg⟩
  | succ k ih =>
    obtain ⟨g1, hstep, hrect, _⟩ := nextGeneration_rect hg
    obtain ⟨gk, hk, hrk⟩ := ih hrect
    exact ⟨gk, by simp [nextGenerations, hstep, hk], hrk⟩

theorem beginGeneration_stopped (generations : Int) (fuel : Nat) (w : World)
    (hw : w.generating = false) : beginGeneration generations fuel w = .ok w := by
  cases fuel <;> simp [beginGeneration, hw]

theorem beginGenerationBody_step (generations : Int) (g g1 : Grid) (running : Bool) (c : Int)
    (hc : c < generations ∨ generations = -1) (hstep : nextGeneration g = some g1) :
    beginGenerationBody generations ⟨g, running, c⟩ = some ⟨g1, running, c + 1⟩ := by
  simp [beginGenerationBody, hc, hstep]

theorem beginGenerationBody_halt (generations : Int) (g : Grid) (running : Bool) (c : Int)
    (hc : ¬ (c < generations ∨ generations = -1)) :
    beginGenerationBody generations ⟨g, running, c⟩ = some ⟨g, false, c⟩ := by
  simp [beginGenerationBody, hc]

/-- The bounded loop entered `n` generations below the bound `m` performs `n`
steps and then stops, provided it is given more than `n` iterations. -/
theorem beginGeneration_from (m : Nat) {w h : Nat} (n : Nat) :
    ∀ (j : Nat) (g : Grid), Rect g w h → j + n = m → ∀ fuel, n < fuel →
      ∃ gn, nextGenerations n g = some gn ∧
        beginGeneration (m : Int) fuel ⟨g, true, (j : Int)⟩ = .ok ⟨gn, false, (m : Int)⟩ := by
  induction n with
  | zero =>
    intro j g _ hj fuel hfuel
    obtain ⟨f, rfl⟩ : ∃ f, fuel = f + 1 := ⟨fuel - 1, by omega⟩
    have hj' : j = m := by omega
    subst hj'
    refine ⟨g, rfl, ?_⟩
    have hhalt := beginGenerationBody_halt (j : Int) g true (j : Int) (by omega)
    simp [beginGeneration, hhalt, beginGeneration_stopped]
  | succ k ih =>
    intro j g hg hj fuel hfuel
    obtain ⟨f, rfl⟩ : ∃ f, fuel = f + 1 := ⟨fuel - 1, by omega⟩
    obtain ⟨g1, hstep, hrect, _⟩ := nextGeneration_rect hg
    obtain ⟨gn, hgn, hrun⟩ := ih (j + 1) g1 hrect (by omega) f (by omega)
    refine ⟨gn, by simp [nextGenerations, hstep, hgn], ?_⟩
    have hbody := beginGenerationBody_step (m : Int) g g1 true (j : Int) (Or.inl (by omega)) hstep
    simp only [beginGeneration, if_true, hbody]
    have hcast : ((j : Int) + 1) = ((j + 1 : Nat) : Int) := by push_cast; rfl
    rw [hcast]
    exact hrun

/-- Below the bound the loop cannot finish in as few iterations as there are
generations left. -/
theorem beginGeneration_short (m : Nat) {w h : Nat} (fuel : Nat) :
    ∀ (j : Nat) (g : Grid), Rect g w h → j + fuel ≤ m →
      beginGeneration (m : Int) fuel ⟨g, true, (j : Int)⟩ = .error .outOfFuel := by
  induction fuel with
  | zero => intro j g _ _; simp [beginGeneration]
  | succ f ih =>
    intro j g hg hj
    obtain ⟨g1, hstep, hrect, _⟩ := nextGeneration_rect hg
    have hbody := beginGenerationBody_step (m : Int) g g1 true (j : Int) (Or.inl (by omega)) hstep
    simp only [beginGeneration, if_true, hbody]
    have hcast : ((j : Int) + 1) = ((j + 1 : Nat) : Int) := by push_cast; rfl
    rw [hcast]
    exact ih (j + 1) g1 hrect (by omega)

/-- The first `k` rounds of the body, `k` generations or more below the bound,
are `k` steps. -/
theorem bodyRounds_steps (m : Nat) {w h : Nat} (k : Nat) :
    ∀ (j : Nat) (g : Grid), Rect g w h → j + k ≤ m →
      ∃ gk, nextGenerations k g = some gk ∧
        bodyRounds (m : Int) k ⟨g, true, (j : Int)⟩ = some ⟨gk, true, ((j + k : Nat) : Int)⟩ := by
  induction k with
  | zero => intro j g _ _; exact ⟨g, rfl, rfl⟩
  | succ k ih =>
    intro j g hg hj
    obtain ⟨g1, hstep, hrect, _⟩ := nextGeneration_rect hg
    obtain ⟨gk, hgk, hrun⟩ := ih (j + 1) g1 hrect (by omega)
    refine ⟨gk, by simp [nextGenerations, hstep, hgk], ?_⟩
    have hbody := beginGenerationBody_step (m : Int) g g1 true (j : Int) (Or.inl (by omega)) hstep
    have hcast : ((j : Int) + 1) = ((j + 1 : Nat) : Int) := by push_cast; rfl
    simp only [bodyRounds, hbody, Option.some_bind, hcast, hrun]
    congr 3
    omega

theorem bodyRounds_add (generations : Int) (a b : Nat) (w : World) :
    bodyRounds generations (a + b) w =
      (bodyRounds generations a w).bind (bodyRounds generations b) := by
  induction a generalizing w with
  | zero => simp [bodyRounds]
  | succ a ih =>
    rw [Nat.add_right_comm]
    simp only [bodyRounds]
    cases hb : beginGenerationBody generations w with
    | none => rfl
    | some w1 => simp [ih]

/-- With the unbounded setting the body never clears the flag. -/
theorem bodyRounds_unbounded (k : Nat) :
    ∀ (w w1 : World), bodyRounds (-1) k w = some w1 → w1.generating = w.generating := by
  induction k with
  | zero =>
    intro w w1 hr
    simp only [bodyRounds, Option.some.injEq] at hr
    rw [hr]
  | succ k ih =>
    intro w w1 hr
    simp only [bodyRounds] at hr
    cases hb : beginGenerationBody (-1) w with
    | none => rw [hb] at hr; cases hr
    | some w2 =>
      rw [hb] at hr
      have h2 := ih w2 w1 hr
      have hw2 : w2.generating = w.generating := by
        simp only [beginGenerationBody, or_true, if_true] at hb
        cases hn : nextGeneration w.grid with
        | none => simp [hn] at hb
        | some g1 =>
          simp [hn] at hb
          rw [← hb]
      rw [h2, hw2]

/-- With the unbounded setting the loop on a rectangular grid uses up any
number of iterations. -/
theorem beginGeneration_unbounded {w h : Nat} (fuel : Nat) :
    ∀ (g : Grid) (c : Int), Rect g w h →
      beginGeneration (-1) fuel ⟨g, true, c⟩ = .error .outOfFuel := by
  induction fuel with
  | zero => intro g c _; simp [beginGeneration]
  | succ f ih =>
    intro g c hg
    obtain ⟨g1, hstep, hrect, _⟩ := nextGeneration_rect hg
    have hbody := beginGenerationBody_step (-1) g g1 true c (Or.inr rfl) hstep
    simp only [beginGeneration, if_true, hbody]
    exact ih g1 (c + 1) hrect

theorem bodyRounds_halted (m : Int) (hm : m ≠ -1) (g : Grid) (n : Nat) :
    ∀ running : Bool, bodyRounds m (n + 1) ⟨g, running, m⟩ = some ⟨g, false, m⟩ := by
  induction n with
  | zero =>
    intro running
    have hhalt := beginGenerationBody_halt m g running m (by omega)
    simp [bodyRounds, hhalt]
  | succ n ih =>
    intro running
    have hhalt := beginGenerationBody_halt m g running m (by omega)
    rw [bodyRounds, hhalt, Option.some_bind]
    exact ih false

theorem resetLoops_rect {gridSizeX gridSizeY : Nat} (g : Grid)
    (hg : Rect g gridSizeX gridSizeY) :
    (List.range gridSizeY).foldlM (fun (g : Grid) (y : Nat) =>
      (List.range gridSizeX).foldlM (fun (g : Grid) (x : Nat) => setCell g y x false) g) g
      = some (deadGrid gridSizeX gridSizeY) := by
  obtain ⟨s, hs, hrect, hcells⟩ := fill_rows
    (fun (g : Grid) (y : Nat) =>
      (List.range gridSizeX).foldlM
        (fun (g : Grid) (x : Nat) => setCell g (y : Int) (x : Int) false) g)
    (fun (g : Grid) (y x : Nat) => setCell g (y : Int) (x : Int) false)
    (fun _ _ => false) (fun _ _ _ _ => rfl)
    (fun s x y hs hx hy => setCell_rect hs x y hx hy false) g hg
  rw [hs]
  congr 1
  apply hrect.ext (deadGrid_rect gridSizeX gridSizeY)
  intro a b ha hb
  rw [hcells a b ha hb, cellAt_deadGrid _ _ a b ha hb]

/-! ## Run control (C7 to C10) -/

/-- C7: from every prior state whose grid has the configured shape (any cell
contents, any counter value, flag set or not), the Reset Simulation handler
returns the state with `currentGeneration = 0`, `generating = false` and every
cell of the grid dead. -/
theorem resetHandler_clears (gridSizeX gridSizeY : Nat) (w : World)
    (hg : Rect w.grid gridSizeX gridSizeY) :
    ∃ w1, resetHandler gridSizeX gridSizeY w = some w1 ∧
      w1.currentGeneration = 0 ∧ w1.generating = false ∧
      Rect w1.grid gridSizeX gridSizeY ∧
      ∀ x y : Nat, x < gridSizeX → y < gridSizeY → cellAt w1.grid x y = some false := by
  refine ⟨⟨deadGrid gridSizeX gridSizeY, false, 0⟩, ?_, rfl, rfl, deadGrid_rect _ _, ?_⟩
  · simp [resetHandler, resetLoops_rect w.grid hg]
  · intro x y hx hy
    exact cellAt_deadGrid _ _ x y hx hy

theorem resetHandler_clears_witness :
    Rect (World.mk blinker5 true 7).grid 5 5 ∧
    ∃ w1, resetHandler 5 5 (World.mk blinker5 true 7) = some w1 ∧
      w1.currentGeneration = 0 ∧ w1.generating = false ∧
      Rect w1.grid 5 5 ∧
      ∀ x y : Nat, x < 5 → y < 5 → cellAt w1.grid x y = some false :=
  ⟨blinker5_rect, resetHandler_clears 5 5 (World.mk blinker5 true 7) blinker5_rect⟩

/-- C8 as the code has it: the Next Generation handler has no check of
`generating`; in every state with a rectangular grid and a counter below the
largest `int`, flag set or not, it applies `nextGeneration` once, adds 1 to
`currentGeneration` (which stays an `int`) and leaves the flag as it was. -/
theorem nextGenerationHandler_always_steps (w : World) (cols rows : Nat)
    (hg : Rect w.grid cols rows) (hfit : w.currentGeneration < maxInt) :
    ∃ g1, nextGeneration w.grid = some g1 ∧
      nextGenerationHandler w = some ⟨g1, w.generating, w.currentGeneration + 1⟩ ∧
      w.currentGeneration + 1 ≤ maxInt := by
  obtain ⟨g1, hstep, _, _⟩ := nextGeneration_rect hg
  exact ⟨g1, hstep, by simp [nextGenerationHandler, hstep], by omega⟩

theorem nextGenerationHandler_always_steps_witness :
    Rect (World.mk blinker5 true 0).grid 5 5 ∧
    (World.mk blinker5 true 0).currentGeneration < maxInt ∧
    ∃ g1, nextGeneration (World.mk blinker5 true 0).grid = some g1 ∧
      nextGenerationHandler (World.mk blinker5 true 0)
        = some ⟨g1, (World.mk blinker5 true 0).generating,
            (World.mk blinker5 true 0).currentGeneration + 1⟩ ∧
      (World.mk blinker5 true 0).currentGeneration + 1 ≤ maxInt :=
  ⟨blinker5_rect, by decide,
    nextGenerationHandler_always_steps (World.mk blinker5 true 0) 5 5 blinker5_rect
      (by decide)⟩

/-- C8 fails on the code: with `generating = true` and a blinker on the 8x8
grid, the Next Generation handler returns a state with a different grid and the
counter moved from 0 to 1. -/
theorem nextGenerationHandler_steps_while_running :
    (World.mk (blinkerGrid 8 8 3 3) true 0).generating = true ∧
    nextGenerationHandler (World.mk (blinkerGrid 8 8 3 3) true 0)
      = some (World.mk (blinkerGridV 8 8 3 3) true 1) ∧
    blinkerGridV 8 8 3 3 ≠ blinkerGrid 8 8 3 3 ∧ (1 : Int) ≠ 0 := by
  decide

/-- C9: with the bound `m ≥ 8`, the loop of `beginGeneration` entered with
`generating = true` and `currentGeneration = 0` on a rectangular grid and left
alone ends, after `m` stepping iterations and one more that clears the flag,
in the state with `currentGeneration = m`, `generating = false` and the grid
`nextGeneration` applied `m` times; fewer than `m + 1` iterations do not finish
it, the state after `k ≤ m` iterations has counter `k`, and no later iteration
moves the counter or the grid. -/
theorem beginGeneration_runs_to_bound (m : Int) (hm : 8 ≤ m) (g : Grid) (w h : Nat)
    (hg : Rect g w h) :
    ∃ gm, nextGenerations m.toNat g = some gm ∧
      (∀ fuel, m.toNat < fuel →
        beginGeneration m fuel ⟨g, true, 0⟩ = .ok ⟨gm, false, m⟩) ∧
      (∀ fuel, fuel ≤ m.toNat →
        beginGeneration m fuel ⟨g, true, 0⟩ = .error .outOfFuel) ∧
      (∀ k, k ≤ m.toNat → ∃ gk, nextGenerations k g = some gk ∧
        bodyRounds m k ⟨g, true, 0⟩ = some ⟨gk, true, (k : Int)⟩) ∧
      (∀ k, m.toNat < k → bodyRounds m k ⟨g, true, 0⟩ = some ⟨gm, false, m⟩) := by
  obtain ⟨n, rfl⟩ := Int.eq_ofNat_of_zero_le (by omega : 0 ≤ m)
  simp only [Int.toNat_ofNat]
  obtain ⟨gm, hgm, hrun⟩ := beginGeneration_from n (w := w) (h := h) n 0 g hg (by omega)
    (n + 1) (by omega)
  have hsteps : ∀ k, k ≤ n → ∃ gk, nextGenerations k g = some gk ∧
      bodyRounds (n : Int) k ⟨g, true, 0⟩ = some ⟨gk, true, (k : Int)⟩ := by
    intro k hk
    obtain ⟨gk, hgk, hr⟩ := bodyRounds_steps n (w := w) (h := h) k 0 g hg (by omega)
    refine ⟨gk, hgk, ?_⟩
    simpa using hr
  refine ⟨gm, hgm, ?_, ?_, hsteps, ?_⟩
  · intro fuel hfuel
    obtain ⟨gm', hgm', hrun'⟩ := beginGeneration_from n (w := w) (h := h) n 0 g hg (by omega)
      fuel hfuel
    rw [hgm] at hgm'
    cases hgm'
    simpa using hrun'
  · intro fuel hfuel
    simpa using beginGeneration_short n (w := w) (h := h) fuel 0 g hg (by omega)
  · intro k hk
    obtain ⟨d, rfl⟩ : ∃ d, k = n + (d + 1) := ⟨k - n - 1, by omega⟩
    obtain ⟨gn, hgn, hr⟩ := hsteps n le_rfl
    rw [hgm] at hgn
    cases hgn
    rw [bodyRounds_add, hr, Option.some_bind]
    exact bodyRounds_halted (n : Int) (by omega) gm d true

theorem beginGeneration_runs_to_bound_witness :
    (8 : Int) ≤ 8 ∧ Rect blinker5 5 5 ∧
    ∃ gm, nextGenerations (8 : Int).toNat blinker5 = some gm ∧
      (∀ fuel, (8 : Int).toNat < fuel →
        beginGeneration 8 fuel ⟨blinker5, true, 0⟩ = .ok ⟨gm, false, 8⟩) ∧
      (∀ fuel, fuel ≤ (8 : Int).toNat →
        beginGeneration 8 fuel ⟨blinker5, true, 0⟩ = .error .outOfFuel) ∧
      (∀ k, k ≤ (8 : Int).toNat → ∃ gk, nextGenerations k blinker5 = some gk ∧
        bodyRounds 8 k ⟨blinker5, true, 0⟩ = some ⟨gk, true, (k : Int)⟩) ∧
      (∀ k, (8 : Int).toNat < k →
        bodyRounds 8 k ⟨blinker5, true, 0⟩ = some ⟨gm, false, 8⟩) :=
  ⟨by decide, blinker5_rect,
    beginGeneration_runs_to_bound 8 (by decide) blinker5 5 5 blinker5_rect⟩

/-- C10: one run of the loop body, entered with `generating = true` and a
counter below the largest `int`, performs a step exactly when
`generations = -1` or `currentGeneration < generations`: then the counter goes
up by 1 (and stays an `int`), the grid becomes its `nextGeneration` image (which
exists for a rectangular grid) and the flag stays set; otherwise the flag is
cleared and grid and counter stay as they were.  With `generations = -1` no
number of rounds clears the flag and the loop never finishes. -/
theorem beginGenerationBody_cases (generations : Int) (w : World)
    (hrun : w.generating = true) (hfit : w.currentGeneration < maxInt) :
    ((generations = -1 ∨ w.currentGeneration < generations) →
      beginGenerationBody generations w =
          (nextGeneration w.grid).map (fun g1 => ⟨g1, true, w.currentGeneration + 1⟩) ∧
        w.currentGeneration + 1 ≤ maxInt) ∧
    (¬ (generations = -1 ∨ w.currentGeneration < generations) →
      beginGenerationBody generations w = some ⟨w.grid, false, w.currentGeneration⟩) ∧
    (∀ cols rows, Rect w.grid cols rows →
      ∃ g1, nextGeneration w.grid = some g1 ∧ Rect g1 cols rows) ∧
    (∀ k w1, bodyRounds (-1) k w = some w1 → w1.generating = true) ∧
    (∀ cols rows fuel, Rect w.grid cols rows →
      beginGeneration (-1) fuel w = .error .outOfFuel) := by
  obtain ⟨g, running, c⟩ := w
  simp only at hrun hfit
  subst hrun
  refine ⟨?_, ?_, ?_, ?_, ?_⟩
  · intro hc
    have hc' : c < generations ∨ generations = -1 := hc.symm
    refine ⟨?_, by show c + 1 ≤ maxInt; omega⟩
    cases hstep : nextGeneration g with
    | none => simp [beginGenerationBody, hc', hstep]
    | some g1 => simp [beginGenerationBody, hc', hstep]
  · intro hc
    exact beginGenerationBody_halt generations g true c (fun hc' => hc hc'.symm)
  · intro cols rows hg
    obtain ⟨g1, hstep, hrect, _⟩ := nextGeneration_rect hg
    exact ⟨g1, hstep, hrect⟩
  · intro k w1 hr
    exact bodyRounds_unbounded k _ w1 hr
  · intro cols rows fuel hg
    exact beginGeneration_unbounded fuel g c hg

theorem beginGenerationBody_cases_witness :
    (World.mk blinker5 true 0).generating = true ∧
    (World.mk blinker5 true 0).currentGeneration < maxInt ∧
    (((8 : Int) = -1 ∨ (World.mk blinker5 true 0).currentGeneration < 8) →
      beginGenerationBody 8 (World.mk blinker5 true 0) =
          (nextGeneration (World.mk blinker5 true 0).grid).map
            (fun g1 => ⟨g1, true, (World.mk blinker5 true 0).currentGeneration + 1⟩) ∧
        (World.mk blinker5 true 0).currentGeneration + 1 ≤ maxInt) ∧
    (¬ ((8 : Int) = -1 ∨ (World.mk blinker5 true 0).currentGeneration < 8) →
      beginGenerationBody 8 (World.mk blinker5 true 0)
        = some ⟨(World.mk blinker5 true 0).grid, false,
            (World.mk blinker5 true 0).currentGeneration⟩) ∧
    (∀ cols rows, Rect (World.mk blinker5 true 0).grid cols rows →
      ∃ g1, nextGeneration (World.mk blinker5 true 0).grid = some g1 ∧ Rect g1 cols rows) ∧
    (∀ k w1, bodyRounds (-1) k (World.mk blinker5 true 0) = some w1 → w1.generating = true) ∧
    (∀ cols rows fuel, Rect (World.mk blinker5 true 0).grid cols rows →
      beginGeneration (-1) fuel (World.mk blinker5 true 0) = .error .outOfFuel) :=
  ⟨rfl, by decide, beginGenerationBody_cases 8 (World.mk blinker5 true 0) rfl (by decide)⟩

/-! ## Events -/

theorem newGrid_rect (gridSizeX gridSizeY : Nat) :
    Rect (newGrid gridSizeX gridSizeY) gridSizeX gridSizeY := by
  refine ⟨by simp [newGrid], ?_⟩
  intro row hmem
  simp only [newGrid, List.mem_map] at hmem
  obtain ⟨b, _, rfl⟩ := hmem
  simp

theorem nextGenerationHandler_rect {s : World} {w h : Nat} (hs : Rect s.grid w h) :
    ∃ g1, nextGeneration s.grid = some g1 ∧ Rect g1 w h ∧
      nextGenerationHandler s = some ⟨g1, s.generating, s.currentGeneration + 1⟩ := by
  obtain ⟨g1, hstep, hrect, _⟩ := nextGeneration_rect hs
  exact ⟨g1, hstep, hrect, by simp [nextGenerationHandler, hstep]⟩

theorem beginGenerationBody_rect (generations : Int) {s : World} {w h : Nat}
    (hs : Rect s.grid w h) :
    ∃ s1, beginGenerationBody generations s = some s1 ∧ Rect s1.grid w h ∧
      s1 = (if s.currentGeneration < generations ∨ generations = -1 then
              { s1 with generating := s.generating, currentGeneration := s.currentGeneration + 1 }
            else { s with generating := false }) ∧
      ((s.currentGeneration < generations ∨ generations = -1) →
        nextGeneration s.grid = some s1.grid) := by
  obtain ⟨g, running, c⟩ := s
  by_cases hc : c < generations ∨ generations = -1
  · obtain ⟨g1, hstep, hrect, _⟩ := nextGeneration_rect hs
    refine ⟨⟨g1, running, c + 1⟩, beginGenerationBody_step generations g g1 running c hc hstep,
      hrect, by simp [hc], fun _ => hstep⟩
  · exact ⟨⟨g, false, c⟩, beginGenerationBody_halt generations g running c hc, hs,
      by simp [hc], fun h => absurd h hc⟩

theorem resetHandler_rect (gridSizeX gridSizeY : Nat) (s : World)
    (hs : Rect s.grid gridSizeX gridSizeY) :
    resetHandler gridSizeX gridSizeY s = some ⟨deadGrid gridSizeX gridSizeY, false, 0⟩ := by
  simp [resetHandler, resetLoops_rect s.grid hs]

/-- Every event returns on a grid of the configured shape and keeps the shape;
an event that completes a step adds 1 to the counter and replaces the grid by
its `nextGeneration` image, Reset sets the counter to 0, and every other event
leaves counter and grid alone. -/
theorem Sim.step_effect (generations : Int) (gridSizeX gridSizeY : Nat) (e : Event) (s : Sim)
    (hs : Rect s.world.grid gridSizeX gridSizeY) :
    ∃ s1, Sim.step generations gridSizeX gridSizeY e s = some s1 ∧
      Rect s1.world.grid gridSizeX gridSizeY ∧
      (if e = .tapReset then s1.world.currentGeneration = 0
       else if Sim.completesStep generations e s = true then
         s1.world.currentGeneration = s.world.currentGeneration + 1 ∧
           nextGeneration s.world.grid = some s1.world.grid
       else
         s1.world.currentGeneration = s.world.currentGeneration ∧
           s1.world.grid = s.world.grid) := by
  cases e with
  | tapStart =>
    by_cases hen : s.startEnabled = true
    · exact ⟨{ world := startHandler s.world, startEnabled := false, loops := s.loops + 1 },
        by simp [Sim.step, hen], hs, by simp [Sim.completesStep, startHandler]⟩
    · exact ⟨s, by simp [Sim.step, hen], hs, by simp [Sim.completesStep]⟩
  | tapStop =>
    exact ⟨{ s with world := stopHandler s.world, startEnabled := true },
      by simp [Sim.step], hs, by simp [Sim.completesStep, stopHandler]⟩
  | tapReset =>
    exact ⟨{ s with world := ⟨deadGrid gridSizeX gridSizeY, false, 0⟩, startEnabled := true },
      by simp [Sim.step, resetHandler_rect gridSizeX gridSizeY s.world hs],
      deadGrid_rect _ _, by simp⟩
  | tapNext =>
    obtain ⟨g1, hstep, hrect, hh⟩ := nextGenerationHandler_rect hs
    exact ⟨{ s with world := ⟨g1, s.world.generating, s.world.currentGeneration + 1⟩ },
      by simp [Sim.step, hh], hrect, by simp [Sim.completesStep, hstep]⟩
  | loopTest =>
    by_cases h0 : s.loops = 0
    · exact ⟨s, by simp [Sim.step, h0], hs, by simp [Sim.completesStep, h0]⟩
    · by_cases hgen : s.world.generating = true
      · obtain ⟨s1, hbody, hrect, hform, hgrid⟩ := beginGenerationBody_rect generations hs
        refine ⟨{ s with world := s1 }, by simp [Sim.step, h0, hgen, hbody], hrect, ?_⟩
        by_cases hc : s.world.currentGeneration < generations ∨ generations = -1
        · rw [if_pos hc] at hform
          have hcur : s1.currentGeneration = s.world.currentGeneration + 1 := by
            rw [hform]
          simp [Sim.completesStep, h0, hgen, hc, hcur, hgrid hc]
        · rw [if_neg hc] at hform
          simp [Sim.completesStep, h0, hgen, hc, hform]
      · exact ⟨{ s with loops := s.loops - 1 }, by simp [Sim.step, h0, hgen], hs,
          by simp [Sim.completesStep, h0, hgen]⟩

/-- A sequence of events from a grid of the configured shape always returns,
in a grid of the same shape; without Reset the counter has grown by the number
of completed steps and the grid is that many `nextGeneration` images on. -/
theorem Sim.run_effect (generations : Int) (gridSizeX gridSizeY : Nat) (evs : List Event) :
    ∀ s : Sim, Rect s.world.grid gridSizeX gridSizeY →
      ∃ s1 n, Sim.run generations gridSizeX gridSizeY evs s = some (s1, n) ∧
        Rect s1.world.grid gridSizeX gridSizeY ∧
        (Event.tapReset ∉ evs →
          s1.world.currentGeneration = s.world.currentGeneration + (n : Int) ∧
            nextGenerations n s.world.grid = some s1.world.grid) := by
  induction evs with
  | nil => intro s hs; exact ⟨s, 0, rfl, hs, fun _ => ⟨by simp, rfl⟩⟩
  | cons e es ih =>
    intro s hs
    obtain ⟨s1, hstep, hrect1, heff⟩ := Sim.step_effect generations gridSizeX gridSizeY e s hs
    obtain ⟨s2, n, hrun, hrect2, hrest⟩ := ih s1 hrect1
    refine ⟨s2, n + (if Sim.completesStep generations e s then 1 else 0), ?_, hrect2, ?_⟩
    · simp [Sim.run, hstep, hrun]
    · intro hno
      have he : e ≠ Event.tapReset := fun h => hno (by simp [h])
      have hes : Event.tapReset ∉ es := fun h => hno (by simp [h])
      obtain ⟨hcur, hgrid⟩ := hrest hes
      rw [if_neg he] at heff
      by_cases hcomp : Sim.completesStep generations e s = true
      · rw [if_pos hcomp] at heff
        refine ⟨by rw [hcur, heff.1]; simp [hcomp]; omega, ?_⟩
        simp [hcomp, nextGenerations, heff.2, hgrid]
      · rw [if_neg hcomp] at heff
        refine ⟨by rw [hcur, heff.1]; simp [hcomp], ?_⟩
        simp only [hcomp]
        rw [← heff.2]
        simpa using hgrid

theorem index_eq_none_iff {α : Type} (s : List α) (i : Int) :
    index s i = none ↔ (i < 0 ∨ (s.length : Int) ≤ i) := by
  constructor
  · intro hnone
    by_contra hin
    obtain ⟨a, ha, _⟩ := index_eq_some_of_lt s i (by omega) (by omega)
    rw [ha] at hnone
    cases hnone
  · rintro (h | h)
    · exact index_eq_none_of_neg s i h
    · exact index_eq_none_of_le s i h

/-! ## Counter, configuration, shape, stop, loops, slice bounds (C11 to C16) -/

/-- Operations run one at a time from counter `c`, with the loop's flag set
whenever a loop iteration is among them and the bound not reached: the counter
ends at `c` plus their number and the grid that many `nextGeneration` images
on. -/
theorem runSteps_counts (generations : Int) {cols rows : Nat} (running : Bool)
    (ops : List StepOp) :
    ∀ (g : Grid) (c : Int), Rect g cols rows →
      (running = true ∨ StepOp.loopTick ∉ ops) →
      (generations = -1 ∨ c + (ops.length : Int) ≤ generations) →
      ∃ gn, nextGenerations ops.length g = some gn ∧
        runSteps generations ops ⟨g, running, c⟩
          = some ⟨gn, running, c + (ops.length : Int)⟩ := by
  induction ops with
  | nil => intro g c _ _ _; exact ⟨g, rfl, by simp [runSteps]⟩
  | cons op ops ih =>
    intro g c hg hloop hbound
    obtain ⟨g1, hstep, hrect, _⟩ := nextGeneration_rect hg
    have hlen : ((op :: ops).length : Int) = (ops.length : Int) + 1 := by
      simp [List.length_cons]
    have hloop1 : running = true ∨ StepOp.loopTick ∉ ops := by
      rcases hloop with h | h
      · exact Or.inl h
      · exact Or.inr fun hm => h (List.mem_cons_of_mem _ hm)
    obtain ⟨gn, hgn, hrun⟩ := ih g1 (c + 1) hrect hloop1 (by omega)
    have hop : StepOp.run generations op ⟨g, running, c⟩ = some ⟨g1, running, c + 1⟩ := by
      cases op with
      | singleStep => simp [StepOp.run, nextGenerationHandler, hstep]
      | loopTick =>
        have hr : running = true := by
          rcases hloop with h | h
          · exact h
          · exact absurd (List.mem_cons_self _ _) h
        subst hr
        have hbody := beginGenerationBody_step generations g g1 true c
          (by omega) hstep
        simp [StepOp.run, hbody]
    refine ⟨gn, by simp [nextGenerations, hstep, hgn], ?_⟩
    rw [runSteps, hop, Option.some_bind, hrun, hlen]
    congr 2
    omega

/-- C11 as the code has it: in a state with a grid of the configured shape and
a counter below the largest `int`, the single-step command and a stepping
iteration of the loop, each run with nothing else running meanwhile, apply
`nextGeneration` once and add exactly 1 to `currentGeneration`; Start and Stop
leave the counter unchanged and Reset sets it to 0.  So from counter 0, after
any sequence of `n` single steps or stepping loop iterations run one at a time
with no reset (`n` not above the largest `int`), `currentGeneration = n` and the
grid is `nextGeneration` applied `n` times to the starting grid. -/
theorem steps_one_at_a_time_count (generations : Int) (gridSizeX gridSizeY : Nat)
    (w : World) (hw : Rect w.grid gridSizeX gridSizeY)
    (hfit : w.currentGeneration < maxInt) :
    (∃ g1, nextGeneration w.grid = some g1 ∧
      StepOp.run generations .singleStep w =
        some ⟨g1, w.generating, w.currentGeneration + 1⟩) ∧
    (w.generating = true →
      (w.currentGeneration < generations ∨ generations = -1) →
      ∃ g1, nextGeneration w.grid = some g1 ∧
        StepOp.run generations .loopTick w =
          some ⟨g1, w.generating, w.currentGeneration + 1⟩) ∧
    w.currentGeneration + 1 ≤ maxInt ∧
    (startHandler w).currentGeneration = w.currentGeneration ∧
    (stopHandler w).currentGeneration = w.currentGeneration ∧
    (∃ w1, resetHandler gridSizeX gridSizeY w = some w1 ∧ w1.currentGeneration = 0) ∧
    (w.currentGeneration = 0 → ∀ ops : List StepOp,
      (w.generating = true ∨ StepOp.loopTick ∉ ops) →
      (generations = -1 ∨ (ops.length : Int) ≤ generations) →
      (ops.length : Int) ≤ maxInt →
      ∃ gn, nextGenerations ops.length w.grid = some gn ∧
        runSteps generations ops w = some ⟨gn, w.generating, (ops.length : Int)⟩) := by
  obtain ⟨g, running, c⟩ := w
  simp only at hw hfit
  obtain ⟨g1, hstep, _, _⟩ := nextGeneration_rect hw
  refine ⟨⟨g1, hstep, by simp [StepOp.run, nextGenerationHandler, hstep]⟩, ?_,
    by show c + 1 ≤ maxInt; omega,
    rfl, rfl, ⟨_, resetHandler_rect gridSizeX gridSizeY _ hw, rfl⟩, ?_⟩
  · intro hr hc
    simp only at hr hc
    refine ⟨g1, hstep, ?_⟩
    simp [StepOp.run, hr, beginGenerationBody_step generations g g1 true c hc hstep]
  · intro h0 ops hloop hbound _
    simp only at h0 hloop
    subst h0
    obtain ⟨gn, hgn, hrun⟩ :=
      runSteps_counts generations running ops g 0 hw hloop (by omega)
    exact ⟨gn, hgn, by simpa using hrun⟩

theorem steps_one_at_a_time_count_witness :
    Rect (World.mk blinker5 true 0).grid 5 5 ∧
    (World.mk blinker5 true 0).currentGeneration < maxInt ∧
    ∃ gn, nextGenerations [StepOp.singleStep, .loopTick, .singleStep].length
        (World.mk blinker5 true 0).grid = some gn ∧
      runSteps (-1) [StepOp.singleStep, .loopTick, .singleStep] (World.mk blinker5 true 0)
        = some ⟨gn, (World.mk blinker5 true 0).generating,
            ([StepOp.singleStep, .loopTick, .singleStep].length : Int)⟩ :=
  ⟨blinker5_rect, by decide,
    (steps_one_at_a_time_count (-1) 5 5 (World.mk blinker5 true 0) blinker5_rect
      (by decide)).2.2.2.2.2.2 rfl [StepOp.singleStep, .loopTick, .singleStep]
      (Or.inl rfl) (Or.inl rfl) (by decide)⟩

/-- The pieces of the handler run with nothing in between are the handler. -/
theorem runPhases_handler (generations : Int) (w : World)
    (loopNextGen : Option (List (List Bool))) :
    runPhases generations [.handlerCompute, .handlerCommit, .handlerCount]
        ⟨w, none, loopNextGen⟩
      = (nextGenerationHandler w).map fun w1 => ⟨w1, none, loopNextGen⟩ := by
  cases hc : computeNextGen w.grid (allocNextGen w.grid) with
  | none => simp [runPhases, Phase.run, nextGenerationHandler, nextGeneration, hc]
  | some nextGen =>
    cases hm : commitNextGen w.grid nextGen with
    | none => simp [runPhases, Phase.run, nextGenerationHandler, nextGeneration, hc, hm]
    | some g1 => simp [runPhases, Phase.run, nextGenerationHandler, nextGeneration, hc, hm]

/-- The pieces of a loop iteration that passes the tests of the loop, run with
nothing in between, are the loop body. -/
theorem runPhases_loop (generations : Int) (w : World)
    (handlerNextGen : Option (List (List Bool))) (hrun : w.generating = true)
    (hc : w.currentGeneration < generations ∨ generations = -1) :
    runPhases generations [.loopCount, .loopCompute, .loopCommit]
        ⟨w, handlerNextGen, none⟩
      = (beginGenerationBody generations w).map fun w1 => ⟨w1, handlerNextGen, none⟩ := by
  cases hcomp : computeNextGen w.grid (allocNextGen w.grid) with
  | none =>
    simp [runPhases, Phase.run, beginGenerationBody, nextGeneration, hrun, hc, hcomp]
  | some nextGen =>
    cases hm : commitNextGen w.grid nextGen with
    | none =>
      simp [runPhases, Phase.run, beginGenerationBody, nextGeneration, hrun, hc, hcomp, hm]
    | some g1 =>
      simp [runPhases, Phase.run, beginGenerationBody, nextGeneration, hrun, hc, hcomp, hm]

/-- C11 fails on the code: with the loop running on the 8x8 blinker, a tap on
Next Generation while a loop iteration is between its compute nest and its
commit nest completes two steps, one single step and one loop iteration, and
leaves `currentGeneration = 2` with the grid only one `nextGeneration` image on,
which is not the grid two images on. -/
theorem overlapping_steps_lose_a_generation :
    (runPhases (-1)
        [.loopCount, .loopCompute, .handlerCompute, .handlerCommit, .handlerCount,
          .loopCommit]
        ⟨World.mk (blinkerGrid 8 8 3 3) true 0, none, none⟩).map (fun s => s.world)
      = some (World.mk (blinkerGridV 8 8 3 3) true 2) ∧
    nextGenerations 1 (blinkerGrid 8 8 3 3) = some (blinkerGridV 8 8 3 3) ∧
    nextGenerations 2 (blinkerGrid 8 8 3 3) = some (blinkerGrid 8 8 3 3) ∧
    blinkerGridV 8 8 3 3 ≠ blinkerGrid 8 8 3 3 := by
  decide

/-- C12: the start-up check rejects the configuration when the width or the
height is outside 8..28 or when the generation bound is one of 1..7, and
accepts it when width and height are both in 8..28 and the bound is -1 or at
least 8. -/
theorem checkConfiguration_spec (gridSizeX gridSizeY generations : Int) :
    ((gridSizeX < 8 ∨ 28 < gridSizeX ∨ gridSizeY < 8 ∨ 28 < gridSizeY) →
      checkConfiguration gridSizeX gridSizeY generations = .error .gridDimensions) ∧
    ((1 ≤ generations ∧ generations ≤ 7) →
      ∃ p, checkConfiguration gridSizeX gridSizeY generations = .error p) ∧
    ((8 ≤ gridSizeX ∧ gridSizeX ≤ 28 ∧ 8 ≤ gridSizeY ∧ gridSizeY ≤ 28 ∧
        (generations = -1 ∨ 8 ≤ generations)) →
      checkConfiguration gridSizeX gridSizeY generations = .ok ()) := by
  refine ⟨?_, ?_, ?_⟩
  · intro hdim
    have hc : gridSizeX < 8 ∨ gridSizeY < 8 ∨ gridSizeX > 28 ∨ gridSizeY > 28 := by omega
    simp only [checkConfiguration, if_pos hc]
  · intro hgen
    by_cases hc : gridSizeX < 8 ∨ gridSizeY < 8 ∨ gridSizeX > 28 ∨ gridSizeY > 28
    · exact ⟨.gridDimensions, by simp only [checkConfiguration, if_pos hc]⟩
    · have hg : generations ≠ -1 ∧ generations < 8 := by omega
      exact ⟨.generationsValue, by simp only [checkConfiguration, if_neg hc, if_pos hg]⟩
  · intro hok
    have hc : ¬ (gridSizeX < 8 ∨ gridSizeY < 8 ∨ gridSizeX > 28 ∨ gridSizeY > 28) := by omega
    have hg : ¬ (generations ≠ -1 ∧ generations < 8) := by omega
    simp only [checkConfiguration, if_neg hc, if_neg hg]

theorem checkConfiguration_spec_witness :
    checkConfiguration 29 20 (-1) = .error .gridDimensions ∧
    (∃ p, checkConfiguration 20 20 7 = .error p) ∧
    checkConfiguration 20 20 (-1) = .ok () :=
  ⟨(checkConfiguration_spec 29 20 (-1)).1 (by decide),
    (checkConfiguration_spec 20 20 7).2.1 (by decide),
    (checkConfiguration_spec 20 20 (-1)).2.2 (by decide)⟩

/-- C13: the grid built by `main` has `h` rows of `w` columns, and when the grid
has `h` rows of `w` columns before `nextGeneration`, the single-step command, a
loop iteration, Stop or Reset (for the constants `w`, `h` it was built with),
each of them returns and the grid has `h` rows of `w` columns afterwards; so does
every sequence of events. -/
theorem grid_shape_invariant (generations : Int) (w h : Nat) (s : World)
    (hs : Rect s.grid w h) :
    Rect (newGrid w h) w h ∧
    (∃ g1, nextGeneration s.grid = some g1 ∧ Rect g1 w h) ∧
    (∃ s1, nextGenerationHandler s = some s1 ∧ Rect s1.grid w h) ∧
    (∃ s1, beginGenerationBody generations s = some s1 ∧ Rect s1.grid w h) ∧
    Rect (stopHandler s).grid w h ∧
    (∃ s1, resetHandler w h s = some s1 ∧ Rect s1.grid w h) ∧
    (∀ (evs : List Event) (startEnabled : Bool) (loops : Nat),
      ∃ r, Sim.run generations w h evs ⟨s, startEnabled, loops⟩ = some r ∧
        Rect r.1.world.grid w h) := by
  refine ⟨newGrid_rect w h, ?_, ?_, ?_, hs, ?_, ?_⟩
  · obtain ⟨g1, hstep, hrect, _⟩ := nextGeneration_rect hs
    exact ⟨g1, hstep, hrect⟩
  · obtain ⟨g1, _, hrect, hh⟩ := nextGenerationHandler_rect hs
    exact ⟨_, hh, hrect⟩
  · obtain ⟨s1, hbody, hrect, _⟩ := beginGenerationBody_rect generations hs
    exact ⟨s1, hbody, hrect⟩
  · exact ⟨_, resetHandler_rect w h s hs, deadGrid_rect w h⟩
  · intro evs startEnabled loops
    obtain ⟨s1, n, hrun, hrect, _⟩ :=
      Sim.run_effect generations w h evs ⟨s, startEnabled, loops⟩ hs
    exact ⟨(s1, n), hrun, hrect⟩

theorem grid_shape_invariant_witness :
    Rect (World.mk blinker5 true 3).grid 5 5 ∧
    (Rect (newGrid 5 5) 5 5 ∧
    (∃ g1, nextGeneration (World.mk blinker5 true 3).grid = some g1 ∧ Rect g1 5 5) ∧
    (∃ s1, nextGenerationHandler (World.mk blinker5 true 3) = some s1 ∧ Rect s1.grid 5 5) ∧
    (∃ s1, beginGenerationBody 8 (World.mk blinker5 true 3) = some s1 ∧ Rect s1.grid 5 5) ∧
    Rect (stopHandler (World.mk blinker5 true 3)).grid 5 5 ∧
    (∃ s1, resetHandler 5 5 (World.mk blinker5 true 3) = some s1 ∧ Rect s1.grid 5 5) ∧
    (∀ (evs : List Event) (startEnabled : Bool) (loops : Nat),
      ∃ r, Sim.run 8 5 5 evs ⟨World.mk blinker5 true 3, startEnabled, loops⟩ = some r ∧
        Rect r.1.world.grid 5 5)) :=
  ⟨blinker5_rect, grid_shape_invariant 8 5 5 (World.mk blinker5 true 3) blinker5_rect⟩

/-- C14: the Stop Simulation handler sets `generating` to false and leaves the
grid and `currentGeneration` unchanged; on a state that is already stopped it
changes nothing, and stop after stop equals stop, on the `world` and on the
whole program state. -/
theorem stopHandler_spec (w : World) :
    (stopHandler w).generating = false ∧
    (stopHandler w).grid = w.grid ∧
    (stopHandler w).currentGeneration = w.currentGeneration ∧
    (w.generating = false → stopHandler w = w) ∧
    stopHandler (stopHandler w) = stopHandler w ∧
    (∀ (generations : Int) (gridSizeX gridSizeY : Nat) (startEnabled : Bool) (loops : Nat),
      (Sim.step generations gridSizeX gridSizeY .tapStop ⟨w, startEnabled, loops⟩).bind
          (Sim.step generations gridSizeX gridSizeY .tapStop)
        = Sim.step generations gridSizeX gridSizeY .tapStop ⟨w, startEnabled, loops⟩) := by
  refine ⟨rfl, rfl, rfl, ?_, rfl, ?_⟩
  · intro hw
    obtain ⟨g, running, c⟩ := w
    simp only at hw
    simp [stopHandler, hw]
  · intro generations gridSizeX gridSizeY startEnabled loops
    simp [Sim.step, stopHandler]

theorem stopHandler_spec_witness :
    stopHandler (World.mk blinker5 false 4) = World.mk blinker5 false 4 :=
  (stopHandler_spec (World.mk blinker5 false 4)).2.2.2.1 rfl

/-- C15 fails on the code: Start, one loop test (the first goroutine steps and
goes to sleep), Stop, Start again leaves two `beginGeneration` goroutines alive
with `generating` set, and the next two loop tests both step, so the counter goes
from 1 to 3 with no tick in between. -/
theorem restart_leaves_two_loops :
    (Sim.run (-1) 8 8 [.tapStart, .loopTest, .tapStop, .tapStart] (Sim.init 8 8)).map
        (fun r => (r.1.loops, r.1.world.generating, r.1.world.currentGeneration))
      = some (2, true, 1) ∧
    (Sim.run (-1) 8 8 [.tapStart, .loopTest, .tapStop, .tapStart, .loopTest, .loopTest]
        (Sim.init 8 8)).map
        (fun r => (r.1.loops, r.1.world.generating, r.1.world.currentGeneration))
      = some (2, true, 3) := by
  decide

/-- C16: on a rectangular grid (zero rows and zero columns included)
`nextGeneration`, `getNumberOfLivingNeighbors` and `checkNeighbor` return a
value, that is, none of their slice accesses is out of range: an access
`s[i]` is `none` exactly when `i < 0` or `i ≥ len(s)`, also for `grid[0]` on the
grid without rows, and every access feeds the result. -/
theorem no_out_of_range_access (g : Grid) (w h : Nat) (hg : Rect g w h) :
    (∀ (rows : Grid) (i : Int), index rows i = none ↔ (i < 0 ∨ (rows.length : Int) ≤ i)) ∧
    (∀ (row : List Bool) (i : Int), index row i = none ↔ (i < 0 ∨ (row.length : Int) ≤ i)) ∧
    (∃ g1, nextGeneration g = some g1) ∧
    (∀ x y : Int, ∃ n, getNumberOfLivingNeighbors g x y = some n) ∧
    (∀ x y xOffset yOffset : Int, ∃ n, checkNeighbor g x y xOffset yOffset = some n) := by
  refine ⟨fun rows i => index_eq_none_iff rows i, fun row i => index_eq_none_iff row i,
    ?_, ?_, ?_⟩
  · obtain ⟨g1, hstep, _, _⟩ := nextGeneration_rect hg
    exact ⟨g1, hstep⟩
  · intro x y
    exact ⟨_, getNumberOfLivingNeighbors_rect hg x y⟩
  · intro x y xOffset yOffset
    exact ⟨_, checkNeighbor_rect hg x y xOffset yOffset⟩

theorem no_out_of_range_access_witness :
    Rect ([] : Grid) 3 0 ∧ Rect ([[], []] : Grid) 0 2 ∧
    (∃ g1, nextGeneration ([] : Grid) = some g1) ∧
    (∃ g1, nextGeneration ([[], []] : Grid) = some g1) :=
  ⟨by unfold Rect; decide, by unfold Rect; decide,
    (no_out_of_range_access [] 3 0 (by unfold Rect; decide)).2.2.1,
    (no_out_of_range_access [[], []] 0 2 (by unfold Rect; decide)).2.2.1⟩

/-! ## Symmetries of the grid (C17) -/

theorem index_reverse {α : Type} (l : List α) (i : Int) :
    index l.reverse i = index l ((l.length : Int) - 1 - i) := by
  by_cases hin : 0 ≤ i ∧ i < (l.length : Int)
  · obtain ⟨n, rfl⟩ := Int.eq_ofNat_of_zero_le hin.1
    have hn : n < l.length := by omega
    have hcast : (l.length : Int) - 1 - (n : Int) = ((l.length - 1 - n : Nat) : Int) := by omega
    rw [hcast]
    simp only [Int.ofNat_eq_coe, index_natCast]
    exact List.getElem?_reverse hn
  · have h1 : index l.reverse i = none :=
      (index_eq_none_iff _ _).mpr (by rw [List.length_reverse]; omega)
    have h2 : index l ((l.length : Int) - 1 - i) = none :=
      (index_eq_none_iff _ _).mpr (by omega)
    rw [h1, h2]

theorem index_map {α β : Type} (f : α → β) (l : List α) (i : Int) :
    index (l.map f) i = (index l i).map f := by
  unfold index
  split <;> simp

theorem index_mem {α : Type} {l : List α} {i : Int} {a : α} (h : index l i = some a) : a ∈ l := by
  by_cases hin : 0 ≤ i ∧ i < (l.length : Int)
  · obtain ⟨b, hb, hmem⟩ := index_eq_some_of_lt l i hin.1 hin.2
    rw [hb] at h
    cases h
    exact hmem
  · rw [(index_eq_none_iff l i).mpr (by omega)] at h
    cases h

theorem cellAt_mirrorLR {g : Grid} {w h : Nat} (hg : Rect g w h) (p q : Int) :
    cellAt (mirrorLR g) p q = cellAt g ((w : Int) - 1 - p) q := by
  unfold cellAt mirrorLR
  rw [index_map]
  cases hrow : index g q with
  | none => rfl
  | some row =>
    have hlen : row.length = w := hg.2 row (index_mem hrow)
    simp only [Option.map_some', Option.some_bind]
    rw [index_reverse, hlen]

theorem cellAt_mirrorTB {g : Grid} {w h : Nat} (hg : Rect g w h) (p q : Int) :
    cellAt (mirrorTB g) p q = cellAt g p ((h : Int) - 1 - q) := by
  unfold cellAt mirrorTB
  rw [index_reverse, hg.1]

theorem mirrorLR_rect {g : Grid} {w h : Nat} (hg : Rect g w h) : Rect (mirrorLR g) w h := by
  refine ⟨by simp [mirrorLR, hg.1], ?_⟩
  intro row hmem
  simp only [mirrorLR, List.mem_map] at hmem
  obtain ⟨r, hr, rfl⟩ := hmem
  simp [hg.2 r hr]

theorem mirrorTB_rect {g : Grid} {w h : Nat} (hg : Rect g w h) : Rect (mirrorTB g) w h := by
  refine ⟨by simp [mirrorTB, hg.1], ?_⟩
  intro row hmem
  exact hg.2 row (by simpa [mirrorTB] using hmem)

theorem headD_length {g : Grid} {w h : Nat} (hg : Rect g w h) (hpos : 0 < h) :
    (g.headD []).length = w := by
  cases g with
  | nil => have := hg.1; simp at this; omega
  | cons r t => exact hg.2 r (by simp)

theorem transposeGrid_rect {g : Grid} {w h : Nat} (hg : Rect g w h) (hpos : 0 < h) :
    Rect (transposeGrid g) h w := by
  unfold transposeGrid
  rw [hg.1, headD_length hg hpos]
  exact gridOf_rect h w _

theorem cellAt_transposeGrid {g : Grid} {w h : Nat} (hg : Rect g w h) (hpos : 0 < h)
    (p q : Int) : cellAt (transposeGrid g) p q = cellAt g q p := by
  by_cases hin : 0 ≤ p ∧ p < (h : Int) ∧ 0 ≤ q ∧ q < (w : Int)
  · obtain ⟨a, rfl⟩ := Int.eq_ofNat_of_zero_le hin.1
    obtain ⟨b, rfl⟩ := Int.eq_ofNat_of_zero_le hin.2.2.1
    obtain ⟨c, hc⟩ := hg.cellAt_some (b : Int) (a : Int) (by omega) (by omega) (by omega)
      (by omega)
    unfold transposeGrid
    rw [hg.1, headD_length hg hpos, cellAt_gridOf h w _ a b (by omega) (by omega)]
    simp [hc]
  · rw [(transposeGrid_rect hg hpos).cellAt_none p q (by omega), hg.cellAt_none q p (by omega)]

theorem nb_eq_of_cellAt {g1 g2 : Grid} {p q p2 q2 : Int}
    (hcell : cellAt g1 p q = cellAt g2 p2 q2) : nb g1 p q = nb g2 p2 q2 := by
  unfold nb
  rw [hcell]

theorem nextCell_mirrorLR {g : Grid} {w h : Nat} (hg : Rect g w h) (a b : Int) :
    nextCell (mirrorLR g) a b = nextCell g ((w : Int) - 1 - a) b := by
  have hnb : ∀ dx dy : Int,
      nb (mirrorLR g) (a + dx) (b + dy) = nb g ((w : Int) - 1 - a + -dx) (b + dy) := by
    intro dx dy
    apply nb_eq_of_cellAt
    rw [cellAt_mirrorLR hg]
    congr 1
    ring
  have hsum : neighbourSum (mirrorLR g) a b = neighbourSum g ((w : Int) - 1 - a) b := by
    simp only [neighbourSum, hnb, neg_neg, neg_zero]
    omega
  unfold nextCell
  rw [hsum, cellAt_mirrorLR hg]

theorem nextCell_mirrorTB {g : Grid} {w h : Nat} (hg : Rect g w h) (a b : Int) :
    nextCell (mirrorTB g) a b = nextCell g a ((h : Int) - 1 - b) := by
  have hnb : ∀ dx dy : Int,
      nb (mirrorTB g) (a + dx) (b + dy) = nb g (a + dx) ((h : Int) - 1 - b + -dy) := by
    intro dx dy
    apply nb_eq_of_cellAt
    rw [cellAt_mirrorTB hg]
    congr 1
    ring
  have hsum : neighbourSum (mirrorTB g) a b = neighbourSum g a ((h : Int) - 1 - b) := by
    simp only [neighbourSum, hnb, neg_neg, neg_zero]
    omega
  unfold nextCell
  rw [hsum, cellAt_mirrorTB hg]

theorem nextCell_transposeGrid {g : Grid} {w h : Nat} (hg : Rect g w h) (hpos : 0 < h)
    (a b : Int) : nextCell (transposeGrid g) a b = nextCell g b a := by
  have hnb : ∀ p q : Int, nb (transposeGrid g) p q = nb g q p := fun p q =>
    nb_eq_of_cellAt (cellAt_transposeGrid hg hpos p q)
  have hsum : neighbourSum (transposeGrid g) a b = neighbourSum g b a := by
    simp only [neighbourSum, hnb]
    omega
  unfold nextCell
  rw [hsum, cellAt_transposeGrid hg hpos]

theorem nextGeneration_eq_of_cells {g t : Grid} {w h : Nat} (hg : Rect g w h) (ht : Rect t w h)
    (hcells : ∀ a b : Nat, a < w → b < h → cellAt t a b = some (nextCell g a b)) :
    nextGeneration g = some t := by
  obtain ⟨g1, hstep, hrect, hc⟩ := nextGeneration_rect hg
  rw [hstep]
  congr 1
  apply hrect.ext ht
  intro a b ha hb
  rw [hc a b ha hb, hcells a b ha hb]

/-- C17: on a rectangular grid `nextGeneration` commutes with the left-right
mirror image, with the top-bottom mirror image and with the transpose: stepping
the image of `g` gives the image of stepping `g`. -/
theorem nextGeneration_commutes_with_symmetries (g : Grid) (w h : Nat) (hg : Rect g w h) :
    ∃ g1, nextGeneration g = some g1 ∧
      nextGeneration (mirrorLR g) = some (mirrorLR g1) ∧
      nextGeneration (mirrorTB g) = some (mirrorTB g1) ∧
      nextGeneration (transposeGrid g) = some (transposeGrid g1) := by
  obtain ⟨g1, hstep, hrect, hc⟩ := nextGeneration_rect hg
  refine ⟨g1, hstep, ?_, ?_, ?_⟩
  · apply nextGeneration_eq_of_cells (mirrorLR_rect hg) (mirrorLR_rect hrect)
    intro a b ha hb
    have hcast : (w : Int) - 1 - (a : Int) = ((w - 1 - a : Nat) : Int) := by omega
    rw [cellAt_mirrorLR hrect, nextCell_mirrorLR hg, hcast]
    exact hc (w - 1 - a) b (by omega) hb
  · apply nextGeneration_eq_of_cells (mirrorTB_rect hg) (mirrorTB_rect hrect)
    intro a b ha hb
    have hcast : (h : Int) - 1 - (b : Int) = ((h - 1 - b : Nat) : Int) := by omega
    rw [cellAt_mirrorTB hrect, nextCell_mirrorTB hg, hcast]
    exact hc a (h - 1 - b) ha (by omega)
  · by_cases hpos : 0 < h
    · apply nextGeneration_eq_of_cells (transposeGrid_rect hg hpos)
        (transposeGrid_rect hrect hpos)
      intro a b ha hb
      rw [cellAt_transposeGrid hrect hpos, nextCell_transposeGrid hg hpos]
      exact hc b a hb ha
    · have h0 : h = 0 := by omega
      have hgnil : g = [] := List.eq_nil_of_length_eq_zero (by rw [hg.1, h0])
      have hg1nil : g1 = [] := List.eq_nil_of_length_eq_zero (by rw [hrect.1, h0])
      rw [hgnil, hg1nil]
      decide

theorem nextGeneration_commutes_with_symmetries_witness :
    Rect blinker5 5 5 ∧
    ∃ g1, nextGeneration blinker5 = some g1 ∧
      nextGeneration (mirrorLR blinker5) = some (mirrorLR g1) ∧
      nextGeneration (mirrorTB blinker5) = some (mirrorTB g1) ∧
      nextGeneration (transposeGrid blinker5) = some (transposeGrid g1) :=
  ⟨blinker5_rect, nextGeneration_commutes_with_symmetries blinker5 5 5 blinker5_rect⟩

end GameOfLife
